import Mathlib

/-!
Verification of the TikzSketch core (object store, undo/redo history,
geometry engine, TikZ code generator) against its natural-language
specification.

The definitions below are a shallow embedding of the TypeScript source:

* `src/src/lib/store.ts` — the Zustand store (object collection, selection,
  history, constraint propagation, geometry utilities);
* `src/src/components/CodeOutput.tsx` — view-bounds fitting and TikZ code
  generation.

Modelling conventions:

* JavaScript numbers are modelled by `ℚ` wherever the source uses only
  field operations, `min`/`max`, `floor`/`ceil` and comparisons, and by `ℝ`
  where the source uses `Math.sqrt` / `Math.acos` (the geometry engine).
  `Point`, `DrawingObject`, … are therefore parametrised by the coordinate
  type.
* Optional TS fields (`points?`, `radius?`, …) become `Option` fields; the
  JS truthiness test `if (obj.points)` becomes `Option.isSome` (an empty
  array is truthy in JS, and the store never puts `null` in these fields).
* `JSON.parse(JSON.stringify(x))` (deep copy) is the identity on pure data.
* Fields of the TS interfaces that no modelled function reads
  (`fontFamily`, `imageData`, `controlPoints`, `expression`, …) are omitted
  from the record; they are never consulted by the code under verification.
-/

namespace TikzSketch

/-- 2-D coordinate pair (interface `Point` in `store.ts`). -/
structure Point (α : Type) where
  x : α
  y : α
deriving DecidableEq, Repr, Inhabited

/-- The closed set of object type tags (the `type` union in `store.ts`). -/
inductive ObjType where
  | point | line | rectangle | circle | text | polygon | angle
  | perpendicular | parallel | midpoint | distance | perp_bisector
  | function | image
deriving DecidableEq, Repr, Inhabited

/-- Constraint kinds (`'center' | 'start_point' | 'end_point'`). -/
inductive ConstraintType where
  | center | start_point | end_point
deriving DecidableEq, Repr

/-- One entry of an object's constraint list. -/
structure ObjectConstraint (α : Type) where
  type : ConstraintType
  targetId : String
  offset : Option (Point α) := none
deriving DecidableEq, Repr

/-- Name-label style overrides (`nameStyle` in `store.ts`); only the fields
read by the modelled code (`fontSize`, `color`) are kept. -/
structure NameStyle (α : Type) where
  fontSize : Option α := none
  color : Option String := none
deriving DecidableEq, Repr

/-- The polymorphic drawing object (interface `DrawingObject` in
`store.ts`), restricted to the fields the modelled functions read. -/
structure DrawingObject (α : Type) where
  id : String
  type : ObjType
  name : String
  visible : Bool
  selected : Bool
  showName : Option Bool := none
  namePosition : Option (Point α) := none
  nameStyle : Option (NameStyle α) := none
  position : Point α
  stroke : String
  strokeWidth : α
  fill : String
  points : Option (List (Point α)) := none
  radius : Option α := none
  width : Option α := none
  height : Option α := none
  text : Option String := none
  fontSize : Option α := none
  rotation : Option α := none
  scaleX : Option α := none
  scaleY : Option α := none
  flipX : Option Bool := none
  flipY : Option Bool := none
  arrowStart : Option String := none
  arrowEnd : Option String := none
  baseLineId : Option String := none
  pointAId : Option String := none
  pointBId : Option String := none
  createdAt : ℕ := 0
  constraints : Option (List (ObjectConstraint α)) := none
deriving DecidableEq, Repr, Inhabited

/-- JS truthiness of an optional boolean field (`undefined` and `false`
are falsy). -/
def jsTruthy : Option Bool → Bool
  | some b => b
  | none => false

/-- Construction-mode tag of the store. -/
inductive ConstructionMode where
  | none | select_point | select_line | select_two_points
deriving DecidableEq, Repr

/-- The store state (`AppState` in `store.ts`), restricted to the fields the
modelled operations read or write.  `CanvasSettings` is omitted: no claim
touches it.  `historyIndex` is a `ℕ`; the source guards (`historyIndex > 0`
before decrementing) keep the JS number non-negative. -/
structure StoreState where
  activeTool : String := "select"
  objects : List (DrawingObject ℚ) := []
  selectedObjectIds : List String := []
  history : List (List (DrawingObject ℚ)) := [[]]
  historyIndex : ℕ := 0
  maxHistorySize : ℕ := 50
  isDrawing : Bool := false
  drawingStartPoint : Option (Point ℚ) := none
  previewObject : Option (DrawingObject ℚ) := none
  currentPolygonPoints : List (Point ℚ) := []
  isPolygonDrawing : Bool := false
  constructionMode : ConstructionMode := ConstructionMode.none
  constructionStep : ℕ := 0
  constructionData : Option Unit := none
  isSelectionBoxActive : Bool := false
  selectionBoxStart : Option (Point ℚ) := none
  selectionBoxEnd : Option (Point ℚ) := none
  isTextEditing : Bool := false
  textEditorPosition : Option (Point ℚ) := none
deriving DecidableEq, Repr

/-- The initial store state (the literal passed to `create` in
`store.ts`). -/
def initialState : StoreState := {}

/-- Stage 1 of `saveToHistory`: `if (historyIndex < history.length - 1)
history = history.slice(0, historyIndex + 1)` — remove the future history
when the cursor is not at the end. -/
def truncatedHistory (s : StoreState) : List (List (DrawingObject ℚ)) :=
  if s.historyIndex + 1 < s.history.length then
    s.history.take (s.historyIndex + 1)
  else s.history

/-- Stage 2 of `saveToHistory`: `history.push(currentObjects)` with the deep
copy of the live objects. -/
def pushedHistory (s : StoreState) : List (List (DrawingObject ℚ)) :=
  truncatedHistory s ++ [s.objects]

/-- Stage 3 of `saveToHistory`: `if (history.length > maxHistorySize)
history = history.slice(-maxHistorySize)` — evict the oldest snapshots. -/
def boundedHistory (s : StoreState) : List (List (DrawingObject ℚ)) :=
  if s.maxHistorySize < (pushedHistory s).length then
    (pushedHistory s).drop ((pushedHistory s).length - s.maxHistorySize)
  else pushedHistory s

/-- `saveToHistory`: truncate the redo tail when the cursor is behind the
end, append a deep copy of the live objects, evict the oldest snapshots
beyond `maxHistorySize` (`slice(-max)`), and point the cursor at the new
last entry. -/
def saveToHistory (s : StoreState) : StoreState :=
  { s with
    history := boundedHistory s,
    historyIndex := (boundedHistory s).length - 1 }

/-- Clear an object's `selected` flag (the `forEach` body in `undo`/`redo`). -/
def clearSel (o : DrawingObject ℚ) : DrawingObject ℚ :=
  { o with selected := false }

/-- `undo`: no-op at cursor 0; otherwise decrement the cursor, replace the
live objects with a copy of the snapshot at the new cursor, and clear the
selection (both the id set and the per-object flags). -/
def undo (s : StoreState) : StoreState :=
  if 0 < s.historyIndex then
    { s with
      historyIndex := s.historyIndex - 1,
      objects := (s.history.getD (s.historyIndex - 1) []).map clearSel,
      selectedObjectIds := [] }
  else s

/-- `redo`: mirror of `undo`, bounded by `history.length - 1`. -/
def redo (s : StoreState) : StoreState :=
  if s.historyIndex + 1 < s.history.length then
    { s with
      historyIndex := s.historyIndex + 1,
      objects := (s.history.getD (s.historyIndex + 1) []).map clearSel,
      selectedObjectIds := [] }
  else s

/-- `canUndo`: the cursor is strictly positive. -/
def canUndo (s : StoreState) : Bool :=
  decide (0 < s.historyIndex)

/-- `canRedo`: the cursor is strictly before the last snapshot. -/
def canRedo (s : StoreState) : Bool :=
  decide (s.historyIndex + 1 < s.history.length)

/-- `selectObject(id, multiSelect)`: single-select replaces the selection
set, multi-select toggles membership; the `selected` flag of every object is
re-mirrored from the new id set. -/
def selectObject (s : StoreState) (id : String) (multiSelect : Bool := false) :
    StoreState :=
  let ids :=
    if multiSelect then
      if s.selectedObjectIds.contains id then
        s.selectedObjectIds.filter (fun selectedId => selectedId != id)
      else s.selectedObjectIds ++ [id]
    else [id]
  { s with
    selectedObjectIds := ids,
    objects := s.objects.map (fun obj => { obj with selected := ids.contains obj.id }) }

/-- `selectObjects(ids)`: replace the id set and re-mirror the flags. -/
def selectObjects (s : StoreState) (ids : List String) : StoreState :=
  { s with
    selectedObjectIds := ids,
    objects := s.objects.map (fun obj => { obj with selected := ids.contains obj.id }) }

/-- `addObject`: assign the fresh id and timestamp to the payload, append
it, make it the sole selection, and commit a history snapshot.  The random
id and `Date.now()` are passed in as parameters. -/
def addObject (s : StoreState) (objectData : DrawingObject ℚ)
    (newObjectId : String) (now : ℕ) : StoreState :=
  let newObject := { objectData with id := newObjectId, createdAt := now }
  let s1 := { s with objects := s.objects ++ [newObject] }
  saveToHistory (selectObject s1 newObjectId)

/-- `updateObject(id, updates)`: merge into the first object with that id if
present (`findIndex`), then commit a snapshot unconditionally.  The partial
update is modelled as a merge function. -/
def updateObject (s : StoreState) (id : String)
    (updates : DrawingObject ℚ → DrawingObject ℚ) : StoreState :=
  let s1 :=
    match s.objects.findIdx? (fun obj => obj.id == id) with
    | some i => { s with objects := s.objects.set i (updates (s.objects.getD i default)) }
    | none => s
  saveToHistory s1

/-- `deleteObject(id)`: drop the object and prune it from the selection,
then commit a snapshot. -/
def deleteObject (s : StoreState) (id : String) : StoreState :=
  saveToHistory
    { s with
      objects := s.objects.filter (fun obj => obj.id != id),
      selectedObjectIds := s.selectedObjectIds.filter (fun selectedId => selectedId != id) }

/-- `clearCanvas`: reset objects, selection, history and all transient
interaction state. -/
def clearCanvas (s : StoreState) : StoreState :=
  { s with
    objects := [],
    selectedObjectIds := [],
    history := [[]],
    historyIndex := 0,
    isDrawing := false,
    drawingStartPoint := none,
    previewObject := none,
    currentPolygonPoints := [],
    isPolygonDrawing := false,
    constructionMode := ConstructionMode.none,
    constructionStep := 0,
    constructionData := none,
    isSelectionBoxActive := false,
    selectionBoxStart := none,
    selectionBoxEnd := none,
    isTextEditing := false,
    textEditorPosition := none }

/-- The history invariant of the spec: `0 ≤ historyIndex < history.length`
(the lower bound is inherent in `ℕ`). -/
def HistoryInv (s : StoreState) : Prop :=
  s.historyIndex < s.history.length

/-- The snapshot at the cursor equals the live object collection. -/
def SnapshotEq (s : StoreState) : Prop :=
  s.history.getD s.historyIndex [] = s.objects

instance (s : StoreState) : Decidable (HistoryInv s) :=
  inferInstanceAs (Decidable (_ < _))

instance (s : StoreState) : Decidable (SnapshotEq s) :=
  inferInstanceAs (Decidable (_ = _))

/-- The repeated rectangle-membership test of `finishSelectionBox`
(`p.x >= minX && p.x <= maxX && p.y >= minY && p.y <= maxY`). -/
def inRect (minX maxX minY maxY : ℚ) (p : Point ℚ) : Bool :=
  decide (minX ≤ p.x) && decide (p.x ≤ maxX) &&
  decide (minY ≤ p.y) && decide (p.y ≤ maxY)

/-- The `switch (obj.type)` of `finishSelectionBox` computing `isInBox`:
`point`/`rectangle`/`circle`/`text` (and the `default` arm) test the anchor
position; `line` tests whether *some* constituent point is inside, provided
the `points` array exists and has at least 2 entries (otherwise `isInBox`
stays `false`). -/
def selectionBoxContains (minX maxX minY maxY : ℚ)
    (obj : DrawingObject ℚ) : Bool :=
  match obj.type with
  | ObjType.point => inRect minX maxX minY maxY obj.position
  | ObjType.line =>
    match obj.points with
    | some ps =>
      if 2 ≤ ps.length then ps.any (inRect minX maxX minY maxY)
      else false
    | none => false
  | ObjType.rectangle => inRect minX maxX minY maxY obj.position
  | ObjType.circle => inRect minX maxX minY maxY obj.position
  | ObjType.text => inRect minX maxX minY maxY obj.position
  | _ => inRect minX maxX minY maxY obj.position

/-- `finishSelectionBox`: when both corners are present, compute the
per-axis min/max bounding box, collect the ids of the visible objects whose
geometry tests inside, and `selectObjects` that id list; in every case reset
the selection-box state. -/
def finishSelectionBox (s : StoreState) : StoreState :=
  let s' :=
    match s.selectionBoxStart, s.selectionBoxEnd with
    | some sbStart, some sbEnd =>
      let minX := min sbStart.x sbEnd.x
      let maxX := max sbStart.x sbEnd.x
      let minY := min sbStart.y sbEnd.y
      let maxY := max sbStart.y sbEnd.y
      let selectedIds := (s.objects.filter
        (fun (obj : DrawingObject ℚ) =>
          obj.visible && selectionBoxContains minX maxX minY maxY obj)).map
        (fun (obj : DrawingObject ℚ) => obj.id)
      selectObjects s selectedIds
    | _, _ => s
  { s' with
    isSelectionBoxActive := false,
    selectionBoxStart := none,
    selectionBoxEnd := none }

/-- A minimal concrete point payload used by the concrete store runs. -/
def sampleObj : DrawingObject ℚ :=
  { id := ""
    type := ObjType.point
    name := "P1"
    visible := true
    selected := false
    position := ⟨0, 0⟩
    stroke := "#000000"
    strokeWidth := 2
    fill := "#000000" }

/-- JS-style array element write `a[i] = v`: within bounds it overwrites;
at or past the end it extends the array (JS would pad skipped slots with
holes — represented here by `⟨0, 0⟩` — a case the store never reaches since
lines always carry at least two points). -/
def jsSetElem (l : List (Point ℚ)) (i : ℕ) (v : Point ℚ) : List (Point ℚ) :=
  if i < l.length then l.set i v
  else l ++ List.replicate (i - l.length) ⟨0, 0⟩ ++ [v]

/-- The body of the inner `forEach` of `updateConstrainedObjects`, applied
to the object at index `i` for one constraint `c`: skip constraints whose
`targetId` is not the moved object's id; look the target up in the *current*
object list (the Immer draft) and silently skip when it does not exist;
then dispatch on the constraint kind — `center` moves a circle's position to
the target's (plus the stored offset when present), `start_point` /
`end_point` move a line's endpoint 0 / 1 to the target's position (no
offset), with `start_point` also re-anchoring `position`. -/
def applyConstraint (objectId : String) (objs : List (DrawingObject ℚ))
    (i : ℕ) (c : ObjectConstraint ℚ) : List (DrawingObject ℚ) :=
  if c.targetId != objectId then objs
  else
    match objs.find? (fun o => o.id == objectId) with
    | none => objs
    | some target =>
      match objs[i]? with
      | none => objs
      | some obj =>
        match c.type with
        | ConstraintType.center =>
          if obj.type = ObjType.circle then
            let pos :=
              match c.offset with
              | some off =>
                (⟨target.position.x + off.x, target.position.y + off.y⟩ : Point ℚ)
              | none => target.position
            objs.set i { obj with position := pos }
          else objs
        | ConstraintType.start_point =>
          match obj.points with
          | some ps =>
            if obj.type = ObjType.line then
              objs.set i
                { obj with
                  points := some (jsSetElem ps 0 target.position),
                  position := target.position }
            else objs
          | none => objs
        | ConstraintType.end_point =>
          match obj.points with
          | some ps =>
            if obj.type = ObjType.line then
              objs.set i
                { obj with points := some (jsSetElem ps 1 target.position) }
            else objs
          | none => objs

/-- The body of the outer `forEach` of `updateConstrainedObjects` for the
object at index `i`: `if (!obj.constraints) return;` then iterate its
constraint list in order. -/
def updateObjectConstraints (objectId : String)
    (objs : List (DrawingObject ℚ)) (i : ℕ) : List (DrawingObject ℚ) :=
  match objs[i]? with
  | none => objs
  | some obj =>
    match obj.constraints with
    | none => objs
    | some cs => cs.foldl (fun acc c => applyConstraint objectId acc i c) objs

/-- `updateConstrainedObjects(objectId)`: one single, non-transitive pass
over all objects, recomputing each dependent whose constraint list
references `objectId`. -/
def updateConstrainedObjects (objectId : String)
    (objs : List (DrawingObject ℚ)) : List (DrawingObject ℚ) :=
  (List.range objs.length).foldl (updateObjectConstraints objectId) objs

/-- The fields of an object that `updateConstrainedObjects` can never
change: everything but `position` and `points`; we track the three that
matter for the pass itself. -/
def constraintSkeleton (o : DrawingObject ℚ) :
    String × ObjType × Option (List (ObjectConstraint ℚ)) :=
  (o.id, o.type, o.constraints)

/-- Concrete scene for the C4 witness: a visible point inside the box, an
invisible point inside the box, a line with one endpoint inside, and a
visible point outside. -/
def boxDemoState : StoreState :=
  { initialState with
    objects := [
      { sampleObj with id := "v", position := ⟨50, 50⟩ },
      { sampleObj with
        id := "h"
        position := ⟨60, 60⟩
        visible := false },
      { sampleObj with
        id := "l"
        type := ObjType.line
        position := ⟨200, 200⟩
        points := some [⟨200, 200⟩, ⟨50, 50⟩] },
      { sampleObj with id := "o", position := ⟨150, 150⟩ }],
    selectionBoxStart := some ⟨0, 0⟩,
    selectionBoxEnd := some ⟨100, 100⟩ }

/-- Concrete constraint for the C5 counterexample: a `start_point`
endpoint-follow carrying a stored offset of `(5, 5)`. -/
def cexConstraint : ObjectConstraint ℚ :=
  { type := ConstraintType.start_point
    targetId := "t"
    offset := some ⟨5, 5⟩ }

/-- The moved target object of the C5 counterexample, at `(10, 10)`. -/
def cTarget : DrawingObject ℚ :=
  { sampleObj with id := "t", position := ⟨10, 10⟩ }

/-- The dependent line of the C5 counterexample. -/
def cLine : DrawingObject ℚ :=
  { sampleObj with
    id := "ln"
    type := ObjType.line
    position := ⟨0, 0⟩
    points := some [⟨0, 0⟩, ⟨1, 1⟩]
    constraints := some [cexConstraint] }

/-- Pointwise difference of two points (used to express direction
vectors). -/
noncomputable def psub (a b : Point ℝ) : Point ℝ := ⟨a.x - b.x, a.y - b.y⟩

/-- Euclidean dot product of two 2-D vectors. -/
noncomputable def dotProduct (u v : Point ℝ) : ℝ := u.x * v.x + u.y * v.y

/-- `calculateMidpoint`: arithmetic mean per axis. -/
noncomputable def calculateMidpoint (pointA pointB : Point ℝ) : Point ℝ :=
  ⟨(pointA.x + pointB.x) / 2, (pointA.y + pointB.y) / 2⟩

/-- `calculateAngle`: the angle at `vertex` between `pointA` and `pointC`,
via the arccosine of the normalised dot product, the cosine clamped to
`[-1, 1]` first (`Math.max(-1, Math.min(1, cosTheta))`), returned in
degrees. -/
noncomputable def calculateAngle (pointA vertex pointC : Point ℝ) : ℝ :=
  let vectorAB : Point ℝ := ⟨pointA.x - vertex.x, pointA.y - vertex.y⟩
  let vectorCB : Point ℝ := ⟨pointC.x - vertex.x, pointC.y - vertex.y⟩
  let dotP := vectorAB.x * vectorCB.x + vectorAB.y * vectorCB.y
  let magnitudeAB :=
    Real.sqrt (vectorAB.x * vectorAB.x + vectorAB.y * vectorAB.y)
  let magnitudeCB :=
    Real.sqrt (vectorCB.x * vectorCB.x + vectorCB.y * vectorCB.y)
  let cosTheta := dotP / (magnitudeAB * magnitudeCB)
  let angleRadians := Real.arccos (max (-1) (min 1 cosTheta))
  angleRadians * 180 / Real.pi

/-- The vector from `vertex` to `tip`, as a point of the Euclidean plane
(used to compare `calculateAngle` with the mathematical angle between
vectors). -/
noncomputable def toVec (tip vertex : Point ℝ) : EuclideanSpace ℝ (Fin 2) :=
  ![tip.x - vertex.x, tip.y - vertex.y]

/-- `getObjectById`: first object with the given id. -/
def getObjectById {α : Type} (objs : List (DrawingObject α)) (id : String) :
    Option (DrawingObject α) :=
  objs.find? (fun obj => obj.id == id)

/-- The string tag of each object type (the TS `type` union values). -/
def objTypeName : ObjType → String
  | ObjType.point => "point"
  | ObjType.line => "line"
  | ObjType.rectangle => "rectangle"
  | ObjType.circle => "circle"
  | ObjType.text => "text"
  | ObjType.polygon => "polygon"
  | ObjType.angle => "angle"
  | ObjType.perpendicular => "perpendicular"
  | ObjType.parallel => "parallel"
  | ObjType.midpoint => "midpoint"
  | ObjType.distance => "distance"
  | ObjType.perp_bisector => "perp_bisector"
  | ObjType.function => "function"
  | ObjType.image => "image"

/-- `type.charAt(0).toUpperCase() + type.slice(1)`. -/
def capitalizeFirst (s : String) : String :=
  match s.toList with
  | [] => ""
  | c :: rest => String.mk (c.toUpper :: rest)

/-- The `shortNames` table of `generateObjectName`. -/
def shortNames : String → Option String
  | "point" => some "P"
  | "line" => some "L"
  | "circle" => some "C"
  | "rectangle" => some "R"
  | "text" => some "T"
  | "polygon" => some "Poly"
  | "angle" => some "α"
  | "midpoint" => some "M"
  | _ => none

/-- `generateObjectName(type)`: count existing objects of that type, use
the short name when the table has one, else the capitalised type name. -/
def generateObjectName {α : Type} (objs : List (DrawingObject α))
    (type : String) : String :=
  let typeObjects := objs.filter (fun obj => objTypeName obj.type == type)
  let count := typeObjects.length + 1
  let displayName := capitalizeFirst type
  match shortNames type with
  | some sn => sn ++ toString count
  | none => displayName ++ toString count

/-- The guard of `calculatePerpendicularLine` (and `calculateParallelLine`):
the base object is missing, not a line, or has fewer than 2 points. -/
def isInvalidBaseLine (objs : List (DrawingObject ℝ)) (id : String) : Bool :=
  match getObjectById objs id with
  | none => true
  | some b =>
    if b.type ≠ ObjType.line then true
    else
      match b.points with
      | none => true
      | some ps => decide (ps.length < 2)

/-- `calculatePerpendicularLine(baseLineId, throughPoint)`: `null` when the
base is missing, not a line, or has fewer than 2 points; otherwise a new
line through `throughPoint`, extended 100 units on each side along the unit
vector obtained by rotating the base direction 90° (`(-dy, dx)`,
normalised), carrying `baseLineId` as a back-reference. -/
noncomputable def calculatePerpendicularLine
    (objs : List (DrawingObject ℝ)) (baseLineId : String)
    (throughPoint : Point ℝ) : Option (DrawingObject ℝ) :=
  match getObjectById objs baseLineId with
  | none => none
  | some baseLine =>
    if baseLine.type ≠ ObjType.line then none
    else
      match baseLine.points with
      | none => none
      | some ps =>
        if ps.length < 2 then none
        else
          let p1 := ps.getD 0 ⟨0, 0⟩
          let p2 := ps.getD 1 ⟨0, 0⟩
          let dx := p2.x - p1.x
          let dy := p2.y - p1.y
          let perpDx := -dy
          let perpDy := dx
          let length : ℝ := 100
          let magnitude := Real.sqrt (perpDx * perpDx + perpDy * perpDy)
          let unitX := perpDx / magnitude
          let unitY := perpDy / magnitude
          let startPoint : Point ℝ :=
            ⟨throughPoint.x - unitX * length, throughPoint.y - unitY * length⟩
          let endPoint : Point ℝ :=
            ⟨throughPoint.x + unitX * length, throughPoint.y + unitY * length⟩
          some
            { id := ""
              type := ObjType.line
              name := generateObjectName objs "perpendicular"
              visible := true
              selected := false
              showName := some true
              position := startPoint
              stroke := "#ef4444"
              strokeWidth := 2
              fill := "transparent"
              points := some [startPoint, endPoint]
              arrowStart := some "none"
              arrowEnd := some "none"
              baseLineId := some baseLineId
              createdAt := 0 }

/-- The direction vector of a line object (second point minus first). -/
noncomputable def lineDirection (l : DrawingObject ℝ) : Point ℝ :=
  match l.points with
  | some (p1 :: p2 :: _) => psub p2 p1
  | _ => ⟨0, 0⟩

/-- The normalised 90°-rotated direction of the base segment `p1 → p2`
(the unit vector of `calculatePerpendicularLine`). -/
noncomputable def unitPerp (p1 p2 : Point ℝ) : Point ℝ :=
  let dx := p2.x - p1.x
  let dy := p2.y - p1.y
  let m := Real.sqrt ((-dy) * (-dy) + dx * dx)
  ⟨-dy / m, dx / m⟩

/-- JS number-to-decimal rounding: round half away from zero, the rounding
ECMAScript `toFixed` applies to the magnitude. -/
def jsRoundHalfAway (q : ℚ) : ℤ :=
  if 0 ≤ q then ⌊q + 1 / 2⌋ else -⌊-q + 1 / 2⌋

/-- Numeric value of `parseFloat(value.toFixed(n))`. -/
def toFixedVal (n : ℕ) (q : ℚ) : ℚ :=
  (jsRoundHalfAway (q * 10 ^ n) : ℚ) / 10 ^ n

/-- JS `x || d` for an optional numeric field: `undefined` and `0` are
falsy, so both fall back to the default. -/
def jsOr (v : Option ℚ) (d : ℚ) : ℚ :=
  match v with
  | some x => if x = 0 then d else x
  | none => d

/-- JS `x || d` for a plain numeric field (`0` is falsy). -/
def jsOrVal (x d : ℚ) : ℚ :=
  if x = 0 then d else x

/-- Numeric value of `parseFloat(pixelToTikZ(pixels))`: divide by the
28 px/cm scale, then the "smart formatting" — exact for integers and
half-integers, otherwise `toFixed(2)` (the string detour through `toFixed`
and `parseFloat` in the source only loses the sub-0.01 digits, which this
captures). -/
def pixelToTikZVal (pixels : ℚ) : ℚ :=
  let value := pixels / 28
  if (⌊value⌋ : ℚ) = value then value
  else if (⌊value * 2⌋ : ℚ) = value * 2 then value
  else toFixedVal 2 value

/-- The fixed origin offset (`getOriginOffset` returns `(0, 0)`). -/
def getOriginOffset : Point ℚ := ⟨0, 0⟩

/-- The result record of `calculateBounds`. -/
structure Bounds where
  minX : ℚ
  maxX : ℚ
  minY : ℚ
  maxY : ℚ
deriving DecidableEq, Repr

/-- The name-label extents accumulated per object in `calculateBounds`:
initialised to the object position on both axes and, when the name is
shown, extended by the estimated name-text box at the (custom or
type-default) name position. -/
def nameExtents (obj : DrawingObject ℚ) : Bounds :=
  let objX := obj.position.x
  let objY := obj.position.y
  let base : Bounds := ⟨objX, objX, objY, objY⟩
  if jsTruthy obj.showName then
    let name :=
      match obj.namePosition with
      | some np => ((objX + np.x, objY + np.y) : ℚ × ℚ)
      | none =>
        match obj.type with
        | ObjType.circle => (objX, objY - jsOr obj.radius 30 - 20)
        | ObjType.rectangle =>
          (objX + jsOr obj.width 80 + 10, objY + jsOr obj.height 60 / 2)
        | ObjType.point => (objX + 10, objY - 15)
        | ObjType.image =>
          (objX + jsOr obj.width 200 / 2, objY + jsOr obj.height 150 + 15)
        | ObjType.text => (objX, objY - jsOr obj.fontSize 16 / 2 - 15)
        | _ => (objX, objY - 15)
    let nameLength : ℚ :=
      if obj.name.length = 0 then 4 else (obj.name.length : ℚ)
    let fontSize := jsOr (obj.nameStyle.bind (fun ns => ns.fontSize)) 12
    let nameWidth := nameLength * fontSize * (7 / 10)
    let nameHeight := fontSize * (12 / 10)
    ⟨min base.minX (name.1 - nameWidth / 2),
     max base.maxX (name.1 + nameWidth / 2),
     min base.minY (name.2 - nameHeight / 2),
     max base.maxY (name.2 + nameHeight / 2)⟩
  else base

/-- The per-object contribution of the `switch (obj.type)` in
`calculateBounds` (each case folds in the name extents as the source does;
the source's `default` arm is unreachable because the `type` union is
closed and every tag has a case).  `jscos`/`jssin` abstract the float
functions `θ ↦ Math.cos(θ·π/180)` / `Math.sin(θ·π/180)` used only for the
rotated-image envelope; the bounds claims hold for every choice. -/
def objectEnvelope (jscos jssin : ℚ → ℚ) (obj : DrawingObject ℚ) : Bounds :=
  let objX := obj.position.x
  let objY := obj.position.y
  let ne := nameExtents obj
  match obj.type with
  | ObjType.circle =>
    let radius := jsOr obj.radius 30
    ⟨min (objX - radius) ne.minX, max (objX + radius) ne.maxX,
     min (objY - radius) ne.minY, max (objY + radius) ne.maxY⟩
  | ObjType.rectangle =>
    let width := jsOr obj.width 80
    let height := jsOr obj.height 60
    ⟨min objX ne.minX, max (objX + width) ne.maxX,
     min objY ne.minY, max (objY + height) ne.maxY⟩
  | ObjType.point =>
    let pointRadius := jsOrVal obj.strokeWidth 2 * (6 / 10)
    ⟨min (objX - pointRadius) ne.minX, max (objX + pointRadius) ne.maxX,
     min (objY - pointRadius) ne.minY, max (objY + pointRadius) ne.maxY⟩
  | ObjType.midpoint =>
    let pointRadius := jsOrVal obj.strokeWidth 2 * (6 / 10)
    ⟨min (objX - pointRadius) ne.minX, max (objX + pointRadius) ne.maxX,
     min (objY - pointRadius) ne.minY, max (objY + pointRadius) ne.maxY⟩
  | ObjType.text =>
    let fontSize := jsOr obj.fontSize 16
    let textLen : ℚ :=
      match obj.text with
      | some t => if t.length = 0 then 4 else (t.length : ℚ)
      | none => 4
    let textWidth := textLen * fontSize * (6 / 10)
    let textHeight := fontSize
    ⟨min (objX - textWidth / 2) ne.minX, max (objX + textWidth / 2) ne.maxX,
     min (objY - textHeight / 2) ne.minY, max (objY + textHeight / 2) ne.maxY⟩
  | ObjType.distance =>
    let fontSize := jsOr obj.fontSize 16
    let textLen : ℚ :=
      match obj.text with
      | some t => if t.length = 0 then 4 else (t.length : ℚ)
      | none => 4
    let textWidth := textLen * fontSize * (6 / 10)
    let textHeight := fontSize
    ⟨min (objX - textWidth / 2) ne.minX, max (objX + textWidth / 2) ne.maxX,
     min (objY - textHeight / 2) ne.minY, max (objY + textHeight / 2) ne.maxY⟩
  | ObjType.image =>
    let imageWidth := jsOr obj.width 200
    let imageHeight := jsOr obj.height 150
    let scaleX := |jsOr obj.scaleX 1 * (if jsTruthy obj.flipX then -1 else 1)|
    let scaleY := |jsOr obj.scaleY 1 * (if jsTruthy obj.flipY then -1 else 1)|
    let cosv := |jscos (-(jsOr obj.rotation 0))|
    let sinv := |jssin (-(jsOr obj.rotation 0))|
    let scaledWidth := imageWidth * scaleX
    let scaledHeight := imageHeight * scaleY
    let envelopeWidth := scaledWidth * cosv + scaledHeight * sinv
    let envelopeHeight := scaledWidth * sinv + scaledHeight * cosv
    let canvasCenterX := objX + imageWidth / 2
    let canvasCenterY := objY + imageHeight / 2
    ⟨min (canvasCenterX - envelopeWidth / 2) ne.minX,
     max (canvasCenterX + envelopeWidth / 2) ne.maxX,
     min (canvasCenterY - envelopeHeight / 2) ne.minY,
     max (canvasCenterY + envelopeHeight / 2) ne.maxY⟩
  | _ =>
    match obj.points with
    | some ps =>
      match ps with
      | [] =>
        ⟨min objX ne.minX, max objX ne.maxX,
         min objY ne.minY, max objY ne.maxY⟩
      | p :: rest =>
        ⟨min (rest.foldl (fun acc q => min acc q.x) p.x) ne.minX,
         max (rest.foldl (fun acc q => max acc q.x) p.x) ne.maxX,
         min (rest.foldl (fun acc q => min acc q.y) p.y) ne.minY,
         max (rest.foldl (fun acc q => max acc q.y) p.y) ne.maxY⟩
    | none =>
      ⟨min objX ne.minX, max objX ne.maxX,
       min objY ne.minY, max objY ne.maxY⟩

/-- The visible-object envelope accumulation of `calculateBounds`: `none`
models the initial `±Infinity` accumulator (no visible object seen). -/
def visibleEnvelope (jscos jssin : ℚ → ℚ) (objs : List (DrawingObject ℚ)) :
    Option Bounds :=
  objs.foldl (fun acc obj =>
    if obj.visible then
      let e := objectEnvelope jscos jssin obj
      match acc with
      | none => some e
      | some b =>
        some ⟨min b.minX e.minX, max b.maxX e.maxX,
              min b.minY e.minY, max b.maxY e.maxY⟩
    else acc) none

/-- `roundToNice(value, isMin)`: floor/ceil to a magnitude-dependent step
from {0.5, 1, 2, 5, 10}. -/
def roundToNice (value : ℚ) (isMin : Bool) : ℚ :=
  let absValue := |value|
  let step : ℚ :=
    if absValue < 1 then 1 / 2
    else if absValue < 5 then 1
    else if absValue < 20 then 2
    else if absValue < 100 then 5
    else 10
  if isMin then ⌊value / step⌋ * step
  else ⌈value / step⌉ * step

/-- `calculateBounds`: default symmetric bounds for an empty or all-
invisible collection; otherwise the visible envelope converted to TikZ
coordinates (28 px/unit, Y flipped, fixed origin), padded by
`max(1, 10%·range)` per axis, rounded outward to nice steps, and — when one
axis's final span falls below the 4-unit minimum — that axis re-centred and
forced to the minimum (the X check returns early, exactly as the source
does).  The `naturalBoundaries`/`hasNaturalCoords` computation of the
source is dead code (never read) and is omitted. -/
def calculateBounds (jscos jssin : ℚ → ℚ)
    (objs : List (DrawingObject ℚ)) : Bounds :=
  if objs.length = 0 then ⟨-3, 3, -3, 3⟩
  else
    match visibleEnvelope jscos jssin objs with
    | none => ⟨-3, 3, -3, 3⟩
    | some e =>
      let offset := getOriginOffset
      let tikzMinX := pixelToTikZVal (e.minX - offset.x)
      let tikzMaxX := pixelToTikZVal (e.maxX - offset.x)
      let tikzMinY := pixelToTikZVal (-(e.maxY - offset.y))
      let tikzMaxY := pixelToTikZVal (-(e.minY - offset.y))
      let rangeX := tikzMaxX - tikzMinX
      let rangeY := tikzMaxY - tikzMinY
      let basePadding : ℚ := 1
      let paddingX := max basePadding (rangeX * (1 / 10))
      let paddingY := max basePadding (rangeY * (1 / 10))
      let minX := tikzMinX - paddingX
      let maxX := tikzMaxX + paddingX
      let minY := tikzMinY - paddingY
      let maxY := tikzMaxY + paddingY
      let finalMinX := roundToNice minX true
      let finalMaxX := roundToNice maxX false
      let finalMinY := roundToNice minY true
      let finalMaxY := roundToNice maxY false
      let finalRangeX := finalMaxX - finalMinX
      let finalRangeY := finalMaxY - finalMinY
      let minRange : ℚ := 4
      if finalRangeX < minRange then
        let midX := (finalMinX + finalMaxX) / 2
        ⟨midX - minRange / 2, midX + minRange / 2, finalMinY, finalMaxY⟩
      else if finalRangeY < minRange then
        let midY := (finalMinY + finalMaxY) / 2
        ⟨finalMinX, finalMaxX, midY - minRange / 2, midY + minRange / 2⟩
      else
        ⟨finalMinX, finalMaxX, finalMinY, finalMaxY⟩

/-- A minimal concrete real-coordinate object for the geometry witnesses. -/
def sampleObjR : DrawingObject ℝ :=
  { id := ""
    type := ObjType.point
    name := "P1"
    visible := true
    selected := false
    position := ⟨0, 0⟩
    stroke := "#000000"
    strokeWidth := 2
    fill := "#000000" }

/-- A concrete vertical base line for the C6 witness. -/
def perpBase : DrawingObject ℝ :=
  { sampleObjR with
    id := "b"
    type := ObjType.line
    points := some [⟨0, 0⟩, ⟨0, 1⟩] }

/-- The line `calculatePerpendicularLine` produces from `perpBase` through
the origin: horizontal, from `(100, 0)` to `(-100, 0)`. -/
def perpDemo : DrawingObject ℝ :=
  { id := ""
    type := ObjType.line
    name := generateObjectName [perpBase] "perpendicular"
    visible := true
    selected := false
    showName := some true
    position := ⟨100, 0⟩
    stroke := "#ef4444"
    strokeWidth := 2
    fill := "transparent"
    points := some [⟨100, 0⟩, ⟨-100, 0⟩]
    arrowStart := some "none"
    arrowEnd := some "none"
    baseLineId := some "b"
    createdAt := 0 }

/-! ### Code generation (`generateTikZCode` and its helpers, CodeOutput.tsx) -/

/-- A hexadecimal digit (the character class of the `isValidHexColor`
regex, case-insensitive). -/
def isHexDigitChar (c : Char) : Bool :=
  c.isDigit || ('a' ≤ c && c ≤ 'f') || ('A' ≤ c && c ≤ 'F')

/-- `isValidHexColor`: the regex `^#[0-9A-F]\x7b6\x7d$/i`. -/
def isValidHexColor (color : String) : Bool :=
  match color.toList with
  | '#' :: rest => rest.length == 6 && rest.all isHexDigitChar
  | _ => false

/-- The `commonColors` list of `generateColorDefinitions`. -/
def commonColors : List String :=
  ["#000000", "#ffffff", "#3b82f6", "#ef4444", "#10b981", "#f59e0b",
   "#8b5cf6", "#ec4899", "#6b7280", "#1f2937"]

/-- JS `Set.add`: append when not already present (a JS `Set` iterates in
insertion order). -/
def addCustomColor (acc : List String) (c : String) : List String :=
  if acc.contains c then acc else acc ++ [c]

/-- The candidate custom colors one object contributes, in the source's
order (stroke, fill, name-style color); a JS string is truthy iff
nonempty. -/
def customColorCandidates (obj : DrawingObject ℚ) : List String :=
  (if obj.stroke ≠ "" ∧ obj.stroke ≠ "transparent" ∧
      isValidHexColor obj.stroke ∧
      ¬ commonColors.contains obj.stroke.toLower then
    [obj.stroke.toLower] else []) ++
  (if obj.fill ≠ "" ∧ obj.fill ≠ "transparent" ∧
      isValidHexColor obj.fill ∧
      ¬ commonColors.contains obj.fill.toLower then
    [obj.fill.toLower] else []) ++
  (match obj.nameStyle.bind (fun ns => ns.color) with
   | some c =>
     if c ≠ "" ∧ isValidHexColor c ∧ ¬ commonColors.contains c.toLower then
       [c.toLower] else []
   | none => [])

/-- The insertion-ordered custom color set of `generateColorDefinitions`. -/
def customColors (objs : List (DrawingObject ℚ)) : List String :=
  objs.foldl (fun acc obj =>
    if obj.visible then (customColorCandidates obj).foldl addCustomColor acc
    else acc) []

/-- `generateColorDefinitions`: one `\definecolor` block per custom color,
joined by newlines (empty string when there is none). -/
def generateColorDefinitions (objs : List (DrawingObject ℚ)) : String :=
  String.intercalate "\n" ((customColors objs).map (fun color =>
    "% Custom color: " ++ color ++
    "\n\\definecolor\x7bcustomcolor" ++ (color.drop 1).toUpper ++
    "\x7d\x7bHTML\x7d\x7b" ++ (color.drop 1).toUpper ++ "\x7d"))

/-- The `header` template of `generateTikZCode` (document wrapper on or
off; `graphicx` added when a visible image exists, the custom color block
when nonempty). -/
def tikzHeader (showDocumentWrapper : Bool)
    (objs : List (DrawingObject ℚ)) : String :=
  let colorDefinitions := generateColorDefinitions objs
  let hasImages := objs.any (fun obj =>
    obj.type == ObjType.image && obj.visible)
  if showDocumentWrapper then
    "\\documentclass[tikz,border=10pt]\x7bstandalone\x7d\n" ++
    "\\usepackage\x7btikz\x7d\n" ++
    "\\usepackage\x7bxcolor\x7d\n" ++
    "\\usepackage\x7bulem\x7d" ++
    (if hasImages then "\n\\usepackage\x7bgraphicx\x7d" else "") ++
    "\n\\usetikzlibrary\x7barrows.meta\x7d\n" ++
    "\\usetikzlibrary\x7bshapes.geometric\x7d\n" ++
    "\\usetikzlibrary\x7bcalc\x7d\n" ++
    "\\usetikzlibrary\x7bpositioning\x7d\n" ++
    (if colorDefinitions ≠ "" then colorDefinitions ++ "\n" else "") ++
    "\\begin\x7bdocument\x7d\n\\begin\x7btikzpicture\x7d"
  else
    "\\begin\x7btikzpicture\x7d"

/-- The `footer` template of `generateTikZCode`. -/
def tikzFooter (showDocumentWrapper : Bool) : String :=
  if showDocumentWrapper then
    "\\end\x7btikzpicture\x7d\n\\end\x7bdocument\x7d"
  else
    "\\end\x7btikzpicture\x7d"

/-- Zero-pad a digit string on the left to length `n`. -/
def padZeros (s : String) (n : ℕ) : String :=
  String.mk (List.replicate (n - s.length) '0') ++ s

/-- Decimal rendering of a nonnegative numerator `d` with `f` fixed
decimal digits (`d` counts units of `10^-f`). -/
def ratToFixedNat (f : ℕ) (d : ℕ) : String :=
  if f = 0 then toString d
  else toString (d / 10 ^ f) ++ "." ++ padZeros (toString (d % 10 ^ f)) f

/-- JS `value.toFixed(f)` on an exact rational: a negative value formats
as `-` followed by the rendering of its magnitude, and the magnitude is
rounded to the nearest multiple of `10^-f`, ties up (the ECMAScript
`toFixed` rule). -/
def ratToFixed (f : ℕ) (q : ℚ) : String :=
  if q < 0 then "-" ++ ratToFixedNat f (⌊-q * 10 ^ f + 1 / 2⌋).toNat
  else ratToFixedNat f (⌊q * 10 ^ f + 1 / 2⌋).toNat

/-- `formatCoord` of `generateTikZCode`: integers with no decimals, exact
half-integers with one, everything else with two. -/
def formatCoord (value : ℚ) : String :=
  if (⌊value⌋ : ℚ) = value then ratToFixed 0 value
  else if (⌊value * 2⌋ : ℚ) = value * 2 then ratToFixed 1 value
  else ratToFixed 2 value

/-- `getGridStep` of `generateTikZCode`: a nice grid step aiming at about
ten grid lines. -/
def getGridStep (range : ℚ) : ℚ :=
  let targetLines : ℚ := 10
  let roughStep := range / targetLines
  if roughStep ≤ 1 / 4 then 1 / 4
  else if roughStep ≤ 1 / 2 then 1 / 2
  else if roughStep ≤ 1 then 1
  else if roughStep ≤ 2 then 2
  else if roughStep ≤ 5 then 5
  else if roughStep ≤ 10 then 10
  else if roughStep ≤ 20 then 20
  else if roughStep ≤ 50 then 50
  else ⌈roughStep / 10⌉ * 10

/-- The tick-spacing selection both axes of `generateTikZCode` apply to
`axisRange / targetTicks`. -/
def getTickSpacing (rough : ℚ) : ℚ :=
  if rough ≤ 1 / 4 then 1 / 4
  else if rough ≤ 1 / 2 then 1 / 2
  else if rough ≤ 1 then 1
  else if rough ≤ 2 then 2
  else if rough ≤ 5 then 5
  else ⌈rough⌉

/-- The JS `for (let x = start; x <= max; x += step)` value list (in the
exact-rational model the accumulated sum is `start + i·step`); a
nonpositive step yields no iterations (the source's steps are always
positive). -/
def jsForRange (start max step : ℚ) : List ℚ :=
  if 0 < step then
    (List.range (⌊(max - start) / step⌋ + 1).toNat).map
      (fun i => start + i * step)
  else []

/-- One X-axis tick line of the coordinate system. -/
def xTickLine (x : ℚ) : String :=
  "\n  \\draw (" ++ formatCoord x ++
  ",0) +(0,-1.5pt) -- +(0,1.5pt) node[below] \x7b\\footnotesize $" ++
  formatCoord x ++ "$\x7d;"

/-- One Y-axis tick line of the coordinate system. -/
def yTickLine (y : ℚ) : String :=
  "\n  \\draw (0," ++ formatCoord y ++
  ") +(-1.5pt,0) -- +(1.5pt,0) node[left] \x7b\\footnotesize $" ++
  formatCoord y ++ "$\x7d;"

/-- The `coordinateSystem` string `generateTikZCode` builds from the
calculated bounds when `showCoordinates` is on: banner, optional minor
grid, main grid, the two axes (each drawn when the other coordinate's zero
line crosses the bounds), the origin dot, and the tick marks (the zero
tick is suppressed by the `|x| ≥ 0.1·spacing` filter).  The source's
`showAxes` variable is computed but never read (dead code) and is
omitted. -/
def coordinateSystemString (b : Bounds) : String :=
  let rangeX := b.maxX - b.minX
  let rangeY := b.maxY - b.minY
  let stepX := getGridStep rangeX
  let stepY := getGridStep rangeY
  let gridMinX := (⌊b.minX / stepX⌋ : ℚ) * stepX
  let gridMaxX := (⌈b.maxX / stepX⌉ : ℚ) * stepX
  let gridMinY := (⌊b.minY / stepY⌋ : ℚ) * stepY
  let gridMaxY := (⌈b.maxY / stepY⌉ : ℚ) * stepY
  let axisMargin := min stepX stepY * (3 / 10)
  let banner := "\n  \n  % Smart coordinate system"
  let minorGrid :=
    if 1 ≤ stepX ∧ 1 ≤ stepY then
      "\n  \\draw[gray!15, very thin] (" ++ formatCoord gridMinX ++ "," ++
      formatCoord gridMinY ++ ") grid[step=0.5] (" ++
      formatCoord gridMaxX ++ "," ++ formatCoord gridMaxY ++ ");"
    else ""
  let mainGrid :=
    "\n  \\draw[gray!25, thin] (" ++ formatCoord gridMinX ++ "," ++
    formatCoord gridMinY ++ ") grid[" ++
    (if stepX = stepY then "step=" ++ formatCoord stepX
     else "xstep=" ++ formatCoord stepX ++ ", ystep=" ++
       formatCoord stepY) ++
    "] (" ++ formatCoord gridMaxX ++ "," ++ formatCoord gridMaxY ++ ");"
  let xAxis :=
    if b.minY ≤ 0 ∧ 0 ≤ b.maxY then
      "\n  \\draw[->] (" ++ formatCoord (gridMinX + axisMargin) ++
      ",0) -- (" ++ formatCoord (gridMaxX - axisMargin) ++
      ",0) node[right] \x7b$x$\x7d;"
    else ""
  let yAxis :=
    if b.minX ≤ 0 ∧ 0 ≤ b.maxX then
      "\n  \\draw[->] (0," ++ formatCoord (gridMinY + axisMargin) ++
      ") -- (0," ++ formatCoord (gridMaxY - axisMargin) ++
      ") node[above] \x7b$y$\x7d;"
    else ""
  let origin :=
    if b.minX ≤ 0 ∧ 0 ≤ b.maxX ∧ b.minY ≤ 0 ∧ 0 ≤ b.maxY then
      let originLabelPos :=
        if -1 / 2 < b.minX ∧ -1 / 2 < b.minY then "above right"
        else if b.maxX < 1 / 2 ∧ -1 / 2 < b.minY then "above left"
        else if -1 / 2 < b.minX ∧ b.maxY < 1 / 2 then "below right"
        else "below left"
      "\n  \\fill (0,0) circle (1pt) node[" ++ originLabelPos ++
      "] \x7b$O$\x7d;"
    else ""
  let xTicks :=
    if b.minY ≤ 0 ∧ 0 ≤ b.maxY then
      let axisMinX := gridMinX + axisMargin
      let axisMaxX := gridMaxX - axisMargin
      let tickSpacingX := getTickSpacing ((axisMaxX - axisMinX) / 10)
      let startTick := (⌈axisMinX / tickSpacingX⌉ : ℚ) * tickSpacingX
      let ticksX := (jsForRange startTick axisMaxX tickSpacingX).filter
        (fun x => tickSpacingX * (1 / 10) ≤ |x|)
      String.join (ticksX.map xTickLine)
    else ""
  let yTicks :=
    if b.minX ≤ 0 ∧ 0 ≤ b.maxX then
      let axisMinY := gridMinY + axisMargin
      let axisMaxY := gridMaxY - axisMargin
      let tickSpacingY := getTickSpacing ((axisMaxY - axisMinY) / 10)
      let startTick := (⌈axisMinY / tickSpacingY⌉ : ℚ) * tickSpacingY
      let ticksY := (jsForRange startTick axisMaxY tickSpacingY).filter
        (fun y => tickSpacingY * (1 / 10) ≤ |y|)
      String.join (ticksY.map yTickLine)
    else ""
  banner ++ minorGrid ++ mainGrid ++ xAxis ++ yAxis ++ origin ++
    xTicks ++ yTicks

/-- The fixed placeholder body `generateTikZCode` emits for an empty
collection. -/
def emptyBody : String :=
  "\n      \n  % No objects to draw\n  % Use the tools in the toolbar to create geometric shapes\n  "

/-- `generateTikZCode`.  `jscos`/`jssin` feed `calculateBounds` (consulted
only when `showCoordinates` is on) and `generateObjectCode` abstracts the
per-object emitter (a pure function of the object; never consulted on an
empty collection).  Objects are drawn sorted by `createdAt` (a stable JS
sort), objects whose emitted code is blank are dropped, and the empty
collection gets the placeholder body with the coordinate system after it
(the non-empty branch puts the coordinate system before the body). -/
def generateTikZCode (jscos jssin : ℚ → ℚ)
    (generateObjectCode : DrawingObject ℚ → String)
    (showDocumentWrapper showCoordinates : Bool)
    (objs : List (DrawingObject ℚ)) : String :=
  let header := tikzHeader showDocumentWrapper objs
  let footer := tikzFooter showDocumentWrapper
  let coordinateSystem :=
    if showCoordinates then
      coordinateSystemString (calculateBounds jscos jssin objs)
    else ""
  if objs.length = 0 then
    header ++ emptyBody ++ coordinateSystem ++ "\n" ++ footer
  else
    let sortedObjects := objs.mergeSort
      (fun a b => decide (a.createdAt ≤ b.createdAt))
    let body := "\n" ++ String.intercalate "\n"
      ((sortedObjects.map generateObjectCode).filter
        (fun code => code.trim != ""))
    header ++ coordinateSystem ++ body ++ "\n" ++ footer

/-- The coordinate system the default bounds `[-3,3]²` produce: banner,
minor and main grids over `[-3,3]²`, both axes inset by the 0.3 margin,
origin label below left, and ticks at `±1, ±2` on each axis. -/
def defaultCoordSystem : String :=
  "\n  \n  % Smart coordinate system" ++
  "\n  \\draw[gray!15, very thin] (-3,-3) grid[step=0.5] (3,3);" ++
  "\n  \\draw[gray!25, thin] (-3,-3) grid[step=1] (3,3);" ++
  "\n  \\draw[->] (-2.70,0) -- (2.70,0) node[right] \x7b$x$\x7d;" ++
  "\n  \\draw[->] (0,-2.70) -- (0,2.70) node[above] \x7b$y$\x7d;" ++
  "\n  \\fill (0,0) circle (1pt) node[below left] \x7b$O$\x7d;" ++
  "\n  \\draw (-2,0) +(0,-1.5pt) -- +(0,1.5pt) node[below] \x7b\\footnotesize $-2$\x7d;" ++
  "\n  \\draw (-1,0) +(0,-1.5pt) -- +(0,1.5pt) node[below] \x7b\\footnotesize $-1$\x7d;" ++
  "\n  \\draw (1,0) +(0,-1.5pt) -- +(0,1.5pt) node[below] \x7b\\footnotesize $1$\x7d;" ++
  "\n  \\draw (2,0) +(0,-1.5pt) -- +(0,1.5pt) node[below] \x7b\\footnotesize $2$\x7d;" ++
  "\n  \\draw (0,-2) +(-1.5pt,0) -- +(1.5pt,0) node[left] \x7b\\footnotesize $-2$\x7d;" ++
  "\n  \\draw (0,-1) +(-1.5pt,0) -- +(1.5pt,0) node[left] \x7b\\footnotesize $-1$\x7d;" ++
  "\n  \\draw (0,1) +(-1.5pt,0) -- +(1.5pt,0) node[left] \x7b\\footnotesize $1$\x7d;" ++
  "\n  \\draw (0,2) +(-1.5pt,0) -- +(1.5pt,0) node[left] \x7b\\footnotesize $2$\x7d;"

lemma pushedHistory_length (s : StoreState) :
    (pushedHistory s).length = (truncatedHistory s).length + 1 := by
  simp [pushedHistory]

lemma pushedHistory_length_pos (s : StoreState) :
    0 < (pushedHistory s).length := by
  simp [pushedHistory_length]

lemma boundedHistory_length (s : StoreState) :
    (boundedHistory s).length =
      min (pushedHistory s).length s.maxHistorySize := by
  unfold boundedHistory
  split
  · simp; omega
  · simp; omega

lemma pushedHistory_getElem_last (s : StoreState) :
    (pushedHistory s)[(pushedHistory s).length - 1]? = some s.objects := by
  unfold pushedHistory
  rw [List.length_append]
  rw [List.length_singleton, Nat.add_sub_cancel]
  exact List.getElem?_concat_length _ _

lemma boundedHistory_getD_last (s : StoreState) (hmax : 1 ≤ s.maxHistorySize) :
    (boundedHistory s).getD ((boundedHistory s).length - 1) [] = s.objects := by
  have hlen := pushedHistory_length_pos s
  have hblen := boundedHistory_length s
  rw [List.getD_eq_getElem?_getD]
  unfold boundedHistory at hblen ⊢
  split
  case isTrue h =>
    rw [List.getElem?_drop]
    have hidx :
        (pushedHistory s).length - s.maxHistorySize +
          (((pushedHistory s).drop ((pushedHistory s).length - s.maxHistorySize)).length - 1)
        = (pushedHistory s).length - 1 := by
      simp only [List.length_drop]
      omega
    rw [hidx, pushedHistory_getElem_last]
    rfl
  case isFalse h =>
    rw [pushedHistory_getElem_last]
    rfl

lemma saveToHistory_objects (s : StoreState) :
    (saveToHistory s).objects = s.objects := rfl

lemma saveToHistory_maxHistorySize (s : StoreState) :
    (saveToHistory s).maxHistorySize = s.maxHistorySize := rfl

lemma histInv_saveToHistory (s : StoreState) (hmax : 1 ≤ s.maxHistorySize) :
    HistoryInv (saveToHistory s) := by
  have h1 := pushedHistory_length_pos s
  have h2 := boundedHistory_length s
  unfold HistoryInv saveToHistory
  simp only []
  omega

lemma snapshotEq_saveToHistory (s : StoreState) (hmax : 1 ≤ s.maxHistorySize) :
    SnapshotEq (saveToHistory s) := by
  unfold SnapshotEq saveToHistory
  simpa using boundedHistory_getD_last s hmax

lemma canRedo_saveToHistory (s : StoreState) :
    canRedo (saveToHistory s) = false := by
  have h1 := pushedHistory_length_pos s
  have h2 := boundedHistory_length s
  unfold canRedo saveToHistory
  simp only [decide_eq_false_iff_not]
  omega

/-- C2: the history invariant `0 ≤ historyIndex < history.length` holds
initially and is preserved by `saveToHistory`, `undo`, `redo` and
`clearCanvas` (the lower bound is inherent in the `ℕ` index; the source's
guards keep the JS number non-negative), and after every committed mutation
(`saveToHistory`, and `addObject` / `updateObject` / `deleteObject`, which
end in it) the snapshot at the cursor equals the live object collection.
`maxHistorySize` is the constant 50 in the store; the preservation steps
assume only that it is at least 1. -/
theorem history_invariant_and_snapshot :
    HistoryInv initialState ∧ initialState.maxHistorySize = 50 ∧
    (∀ s : StoreState, 1 ≤ s.maxHistorySize → HistoryInv s →
      HistoryInv (saveToHistory s) ∧ HistoryInv (undo s) ∧
      HistoryInv (redo s) ∧ HistoryInv (clearCanvas s)) ∧
    (∀ s : StoreState, 1 ≤ s.maxHistorySize →
      SnapshotEq (saveToHistory s) ∧
      (∀ d nid t, SnapshotEq (addObject s d nid t)) ∧
      (∀ id u, SnapshotEq (updateObject s id u)) ∧
      (∀ id, SnapshotEq (deleteObject s id))) := by
  refine ⟨by simp [initialState, HistoryInv], rfl, ?_, ?_⟩
  · intro s hmax hinv
    refine ⟨histInv_saveToHistory s hmax, ?_, ?_, ?_⟩
    · unfold HistoryInv at hinv ⊢
      unfold undo
      split
      · simp only []
        omega
      · exact hinv
    · unfold HistoryInv at hinv ⊢
      unfold redo
      split
      · simp only []
        omega
      · exact hinv
    · simp [HistoryInv, clearCanvas]
  · intro s hmax
    refine ⟨snapshotEq_saveToHistory s hmax, ?_, ?_, ?_⟩
    · intro d nid t
      exact snapshotEq_saveToHistory _ hmax
    · intro id u
      unfold updateObject
      cases h : s.objects.findIdx? (fun obj => obj.id == id) <;>
        simp [h] <;> exact snapshotEq_saveToHistory _ hmax
    · intro id
      exact snapshotEq_saveToHistory _ hmax

/-- Witness for C2 at the initial store state. -/
theorem history_invariant_and_snapshot_witness :
    HistoryInv (saveToHistory initialState) ∧
    SnapshotEq (saveToHistory initialState) ∧
    HistoryInv (undo initialState) ∧
    SnapshotEq (addObject initialState default "a" 1) :=
  ⟨(history_invariant_and_snapshot.2.2.1 initialState (by decide) (by decide)).1,
   (history_invariant_and_snapshot.2.2.2 initialState (by decide)).1,
   (history_invariant_and_snapshot.2.2.1 initialState (by decide) (by decide)).2.1,
   (history_invariant_and_snapshot.2.2.2 initialState (by decide)).2.1 default "a" 1⟩

/-- C3: a commit while the cursor is strictly before the last snapshot
truncates the redo tail before appending (under the store's capacity
invariant `history.length ≤ maxHistorySize` no eviction happens on such a
commit), and afterwards `canRedo` is `false`; every committed mutation
(`addObject`, `updateObject`, `deleteObject`) likewise leaves `canRedo`
false. -/
theorem commit_discards_redo_tail :
    ∀ s : StoreState, s.historyIndex + 1 < s.history.length →
      s.history.length ≤ s.maxHistorySize →
      (saveToHistory s).history =
        s.history.take (s.historyIndex + 1) ++ [s.objects] ∧
      canRedo (saveToHistory s) = false ∧
      (∀ d nid t, canRedo (addObject s d nid t) = false) ∧
      (∀ id u, canRedo (updateObject s id u) = false) ∧
      (∀ id, canRedo (deleteObject s id) = false) := by
  intro s hcur hcap
  refine ⟨?_, canRedo_saveToHistory s, ?_, ?_, ?_⟩
  · have htr : truncatedHistory s = s.history.take (s.historyIndex + 1) := by
      unfold truncatedHistory
      rw [if_pos hcur]
    have hlen2 : (pushedHistory s).length = s.historyIndex + 2 := by
      rw [pushedHistory_length, htr]
      simp
      omega
    show boundedHistory s = _
    unfold boundedHistory
    rw [if_neg (by omega), pushedHistory, htr]
  · intro d nid t
    exact canRedo_saveToHistory _
  · intro id u
    unfold updateObject
    cases h : s.objects.findIdx? (fun obj => obj.id == id) <;>
      simp [h] <;> exact canRedo_saveToHistory _
  · intro id
    exact canRedo_saveToHistory _

/-- Witness for C3: a store with two snapshots and the cursor at 0. -/
theorem commit_discards_redo_tail_witness :
    (saveToHistory (undo (saveToHistory initialState))).history =
      (undo (saveToHistory initialState)).history.take 1 ++
        [(undo (saveToHistory initialState)).objects] ∧
    canRedo (saveToHistory (undo (saveToHistory initialState))) = false := by
  have h := commit_discards_redo_tail (undo (saveToHistory initialState))
    (by decide) (by decide)
  exact ⟨h.1, h.2.1⟩

lemma truncatedHistory_eq_take (s : StoreState) (hinv : HistoryInv s) :
    truncatedHistory s = s.history.take (s.historyIndex + 1) := by
  unfold truncatedHistory
  split
  case isTrue h => rfl
  case isFalse h => exact (List.take_of_length_le (by omega)).symm

lemma pushedHistory_length_inv (s : StoreState) (hinv : HistoryInv s) :
    (pushedHistory s).length = s.historyIndex + 2 := by
  rw [pushedHistory_length, truncatedHistory_eq_take s hinv, List.length_take]
  unfold HistoryInv at hinv
  omega

lemma pushedHistory_getElem_cursor (s : StoreState) (hinv : HistoryInv s) :
    (pushedHistory s)[s.historyIndex]? = s.history[s.historyIndex]? := by
  unfold pushedHistory
  rw [List.getElem?_append_left
    (by rw [truncatedHistory_eq_take s hinv, List.length_take]
        unfold HistoryInv at hinv
        omega)]
  rw [truncatedHistory_eq_take s hinv, List.getElem?_take_of_lt (by omega)]

lemma boundedHistory_getD_penult (s : StoreState) (hinv : HistoryInv s)
    (hcap : s.history.length ≤ s.maxHistorySize) (hmax : 2 ≤ s.maxHistorySize) :
    (boundedHistory s).getD ((boundedHistory s).length - 2) [] =
      s.history.getD s.historyIndex [] := by
  have hP := pushedHistory_length_inv s hinv
  have hcur := pushedHistory_getElem_cursor s hinv
  have hinv' : s.historyIndex < s.history.length := hinv
  rw [List.getD_eq_getElem?_getD, List.getD_eq_getElem?_getD]
  unfold boundedHistory
  split
  case isTrue h =>
    rw [List.getElem?_drop]
    have hidx :
        (pushedHistory s).length - s.maxHistorySize +
          (((pushedHistory s).drop
            ((pushedHistory s).length - s.maxHistorySize)).length - 2)
        = s.historyIndex := by
      simp only [List.length_drop]
      omega
    rw [hidx, hcur]
  case isFalse h =>
    have hidx : (pushedHistory s).length - 2 = s.historyIndex := by omega
    rw [hidx, hcur]

lemma undo_redo_roundtrip_after_save (s1 : StoreState)
    (hinv : HistoryInv s1) (hcap : s1.history.length ≤ s1.maxHistorySize)
    (hmax : 2 ≤ s1.maxHistorySize) :
    (undo (saveToHistory s1)).objects =
      (s1.history.getD s1.historyIndex []).map clearSel ∧
    (redo (undo (saveToHistory s1))).objects = s1.objects.map clearSel := by
  have hP := pushedHistory_length_inv s1 hinv
  have hBlen := boundedHistory_length s1
  have hB2 : 2 ≤ (boundedHistory s1).length := by omega
  have hBpen := boundedHistory_getD_penult s1 hinv hcap hmax
  have hBlast := boundedHistory_getD_last s1 (by omega)
  constructor
  · unfold undo saveToHistory
    simp only []
    rw [if_pos (by omega)]
    have h1 : (boundedHistory s1).length - 1 - 1 = (boundedHistory s1).length - 2 := by
      omega
    rw [h1, hBpen]
  · have hundo : undo (saveToHistory s1) =
        { s1 with
          history := boundedHistory s1,
          historyIndex := (boundedHistory s1).length - 1 - 1,
          objects := ((boundedHistory s1).getD
            ((boundedHistory s1).length - 1 - 1) []).map clearSel,
          selectedObjectIds := [] } := by
      unfold undo saveToHistory
      simp only []
      rw [if_pos (by omega)]
    rw [hundo]
    unfold redo
    simp only []
    rw [if_pos (by omega)]
    simp only []
    have h1 : (boundedHistory s1).length - 1 - 1 + 1 = (boundedHistory s1).length - 1 := by
      omega
    rw [h1, hBlast]

/-- C1 (amended): with the live collection agreeing with the cursor snapshot
up to `selected` flags (true in every reachable state: selection operations
mutate only the flags without committing), `undo` immediately after
`addObject` restores the pre-add collection *up to selected flags* — in
particular the previous object count — and a subsequent `redo` restores the
post-add collection up to selected flags: it equals the snapshot taken at
the add commit with every `selected` flag cleared (undo/redo clear all
selection state, and the add-commit snapshot records the added object as
selected, so exact snapshot equality cannot hold). -/
theorem undo_redo_after_addObject (s : StoreState) (d : DrawingObject ℚ)
    (nid : String) (t : ℕ)
    (hinv : HistoryInv s)
    (hcap : s.history.length ≤ s.maxHistorySize)
    (hmax : 2 ≤ s.maxHistorySize)
    (hsnap : (s.history.getD s.historyIndex []).map clearSel =
      s.objects.map clearSel) :
    (undo (addObject s d nid t)).objects = s.objects.map clearSel ∧
    (undo (addObject s d nid t)).objects.length = s.objects.length ∧
    (redo (undo (addObject s d nid t))).objects =
      ((addObject s d nid t).history.getD
        (addObject s d nid t).historyIndex []).map clearSel ∧
    (addObject s d nid t).history.getD (addObject s d nid t).historyIndex [] =
      (addObject s d nid t).objects := by
  set s1 := selectObject { s with objects := s.objects ++
    [{ d with id := nid, createdAt := t }] } nid with hs1
  have hAdd : addObject s d nid t = saveToHistory s1 := rfl
  have h1inv : HistoryInv s1 := hinv
  have h1cap : s1.history.length ≤ s1.maxHistorySize := hcap
  have h1max : 2 ≤ s1.maxHistorySize := hmax
  have h1snap : (s1.history.getD s1.historyIndex []).map clearSel =
      s.objects.map clearSel := hsnap
  have hround := undo_redo_roundtrip_after_save s1 h1inv h1cap h1max
  have hsnapA : (saveToHistory s1).history.getD
      (saveToHistory s1).historyIndex [] = (saveToHistory s1).objects :=
    snapshotEq_saveToHistory s1 (le_trans one_le_two h1max)
  refine ⟨?_, ?_, ?_, ?_⟩
  · rw [hAdd, hround.1]
    exact h1snap
  · have hlen := congrArg List.length h1snap
    rw [List.length_map, List.length_map] at hlen
    rw [hAdd, hround.1, List.length_map]
    exact hlen
  · rw [hAdd, hround.2, hsnapA]
    rfl
  · rw [hAdd]
    exact hsnapA

/-- Counterexample to C1 as stated: starting from the initial store, add two
point objects.  `undo` does *not* restore the live collection to its exact
pre-add state (the first object was selected before the second add, but
comes back with `selected = false`), and `redo` does *not* restore the
post-add collection exactly equal to the add-commit snapshot (the snapshot
records the second object as selected, the redone collection does not). -/
theorem undo_redo_after_addObject_cex :
    (undo (addObject (addObject initialState sampleObj "a" 1)
        { sampleObj with name := "P2" } "b" 2)).objects ≠
      (addObject initialState sampleObj "a" 1).objects ∧
    (redo (undo (addObject (addObject initialState sampleObj "a" 1)
        { sampleObj with name := "P2" } "b" 2))).objects ≠
      (addObject (addObject initialState sampleObj "a" 1)
        { sampleObj with name := "P2" } "b" 2).history.getD
        (addObject (addObject initialState sampleObj "a" 1)
          { sampleObj with name := "P2" } "b" 2).historyIndex [] := by
  decide

/-- Witness for the amended C1, at the state reached by one `addObject` from
the initial store. -/
theorem undo_redo_after_addObject_witness :
    (undo (addObject (addObject initialState sampleObj "a" 1)
        { sampleObj with name := "P2" } "b" 2)).objects =
      (addObject initialState sampleObj "a" 1).objects.map clearSel ∧
    (redo (undo (addObject (addObject initialState sampleObj "a" 1)
        { sampleObj with name := "P2" } "b" 2))).objects =
      ((addObject (addObject initialState sampleObj "a" 1)
          { sampleObj with name := "P2" } "b" 2).history.getD
        (addObject (addObject initialState sampleObj "a" 1)
          { sampleObj with name := "P2" } "b" 2).historyIndex []).map clearSel := by
  have h := undo_redo_after_addObject (addObject initialState sampleObj "a" 1)
    { sampleObj with name := "P2" } "b" 2
    (by decide) (by decide) (by decide) (by decide)
  exact ⟨h.1, h.2.2.1⟩

lemma lt_length_of_getElem?_eq_some {α : Type} {l : List α} {i : ℕ} {a : α}
    (h : l[i]? = some a) : i < l.length := by
  by_contra hc
  push_neg at hc
  rw [List.getElem?_eq_none hc] at h
  exact Option.noConfusion h

/-- Every branch of `applyConstraint` either leaves the list unchanged or
overwrites index `i` with an object sharing its id, type and constraints. -/
lemma applyConstraint_cases (tid : String) (objs : List (DrawingObject ℚ))
    (i : ℕ) (c : ObjectConstraint ℚ) :
    applyConstraint tid objs i c = objs ∨
    ∃ v, applyConstraint tid objs i c = objs.set i v ∧
      (objs[i]?).map constraintSkeleton = some (constraintSkeleton v) := by
  unfold applyConstraint
  (repeat' split) <;>
    first
      | exact Or.inl rfl
      | exact Or.inr ⟨_, rfl, by simp [*, constraintSkeleton]⟩

lemma lt_length_of_map_skel {objs : List (DrawingObject ℚ)} {i : ℕ}
    {t : String × ObjType × Option (List (ObjectConstraint ℚ))}
    (h : (objs[i]?).map constraintSkeleton = some t) : i < objs.length := by
  cases hh : objs[i]? with
  | none => rw [hh] at h; exact absurd h (by simp)
  | some a => exact lt_length_of_getElem?_eq_some hh

lemma applyConstraint_length (tid : String) (objs : List (DrawingObject ℚ))
    (i : ℕ) (c : ObjectConstraint ℚ) :
    (applyConstraint tid objs i c).length = objs.length := by
  rcases applyConstraint_cases tid objs i c with h | ⟨v, he, -⟩
  · rw [h]
  · rw [he, List.length_set]

lemma applyConstraint_getElem_ne (tid : String)
    (objs : List (DrawingObject ℚ)) (i : ℕ) (c : ObjectConstraint ℚ)
    (j : ℕ) (hne : j ≠ i) :
    (applyConstraint tid objs i c)[j]? = objs[j]? := by
  rcases applyConstraint_cases tid objs i c with h | ⟨v, he, -⟩
  · rw [h]
  · rw [he, List.getElem?_set_ne (Ne.symm hne)]

lemma applyConstraint_skeleton (tid : String)
    (objs : List (DrawingObject ℚ)) (i : ℕ) (c : ObjectConstraint ℚ)
    (j : ℕ) :
    ((applyConstraint tid objs i c)[j]?).map constraintSkeleton =
      (objs[j]?).map constraintSkeleton := by
  rcases applyConstraint_cases tid objs i c with h | ⟨v, he, hsk⟩
  · rw [h]
  · rcases eq_or_ne j i with rfl | hne
    · rw [he, List.getElem?_set_self (lt_length_of_map_skel hsk)]
      exact hsk.symm
    · rw [he, List.getElem?_set_ne (Ne.symm hne)]

lemma applyConstraint_id_of_ne (tid : String)
    (objs : List (DrawingObject ℚ)) (i : ℕ) (c : ObjectConstraint ℚ)
    (h : c.targetId ≠ tid) : applyConstraint tid objs i c = objs := by
  unfold applyConstraint
  rw [if_pos (by simpa [bne_iff_ne] using h)]

lemma constraintsFoldl_length (tid : String) (i : ℕ)
    (cs : List (ObjectConstraint ℚ)) :
    ∀ objs, (cs.foldl (fun acc c => applyConstraint tid acc i c) objs).length
      = objs.length := by
  induction cs with
  | nil => intro objs; rfl
  | cons c cs ih =>
    intro objs
    rw [List.foldl_cons, ih, applyConstraint_length]

lemma constraintsFoldl_getElem_ne (tid : String) (i : ℕ)
    (cs : List (ObjectConstraint ℚ)) (j : ℕ) (hne : j ≠ i) :
    ∀ objs, (cs.foldl (fun acc c => applyConstraint tid acc i c) objs)[j]?
      = objs[j]? := by
  induction cs with
  | nil => intro objs; rfl
  | cons c cs ih =>
    intro objs
    rw [List.foldl_cons, ih, applyConstraint_getElem_ne tid objs i c j hne]

lemma constraintsFoldl_skeleton (tid : String) (i : ℕ)
    (cs : List (ObjectConstraint ℚ)) (j : ℕ) :
    ∀ objs,
      ((cs.foldl (fun acc c => applyConstraint tid acc i c) objs)[j]?).map
        constraintSkeleton = ((objs[j]?).map constraintSkeleton) := by
  induction cs with
  | nil => intro objs; rfl
  | cons c cs ih =>
    intro objs
    rw [List.foldl_cons, ih, applyConstraint_skeleton]

lemma constraintsFoldl_id (tid : String) (i : ℕ)
    (cs : List (ObjectConstraint ℚ)) (h : ∀ c ∈ cs, c.targetId ≠ tid) :
    ∀ objs, cs.foldl (fun acc c => applyConstraint tid acc i c) objs
      = objs := by
  induction cs with
  | nil => intro objs; rfl
  | cons c cs ih =>
    intro objs
    rw [List.foldl_cons,
      applyConstraint_id_of_ne tid objs i c (h c (List.mem_cons_self c cs))]
    exact ih (fun c' hc' => h c' (List.mem_cons_of_mem c hc')) objs

lemma updateObjectConstraints_length (tid : String)
    (objs : List (DrawingObject ℚ)) (i : ℕ) :
    (updateObjectConstraints tid objs i).length = objs.length := by
  unfold updateObjectConstraints
  (repeat' split) <;> first | rfl | apply constraintsFoldl_length

lemma updateObjectConstraints_getElem_ne (tid : String)
    (objs : List (DrawingObject ℚ)) (i j : ℕ) (hne : j ≠ i) :
    (updateObjectConstraints tid objs i)[j]? = objs[j]? := by
  unfold updateObjectConstraints
  (repeat' split) <;>
    first
      | rfl
      | apply constraintsFoldl_getElem_ne tid i _ j hne

lemma updateObjectConstraints_skeleton (tid : String)
    (objs : List (DrawingObject ℚ)) (i j : ℕ) :
    ((updateObjectConstraints tid objs i)[j]?).map constraintSkeleton =
      (objs[j]?).map constraintSkeleton := by
  unfold updateObjectConstraints
  (repeat' split) <;> first | rfl | apply constraintsFoldl_skeleton

lemma updateObjectConstraints_id_of_no_match (tid : String)
    (objs : List (DrawingObject ℚ)) (i : ℕ) (obj : DrawingObject ℚ)
    (hobj : objs[i]? = some obj)
    (h : ∀ c ∈ obj.constraints.getD [], c.targetId ≠ tid) :
    updateObjectConstraints tid objs i = objs := by
  unfold updateObjectConstraints
  rw [hobj]
  show (match obj.constraints with
    | none => objs
    | some cs => cs.foldl (fun acc c => applyConstraint tid acc i c) objs)
    = objs
  cases hcs : obj.constraints with
  | none => rfl
  | some cs =>
    rw [hcs] at h
    exact constraintsFoldl_id tid i cs (by simpa using h) objs

lemma rangeFoldl_length (tid : String) (l : List ℕ) :
    ∀ objs, (l.foldl (updateObjectConstraints tid) objs).length
      = objs.length := by
  induction l with
  | nil => intro objs; rfl
  | cons i l ih =>
    intro objs
    rw [List.foldl_cons, ih, updateObjectConstraints_length]

lemma rangeFoldl_getElem_not_mem (tid : String) (l : List ℕ) (j : ℕ) :
    ∀ objs, j ∉ l →
      (l.foldl (updateObjectConstraints tid) objs)[j]? = objs[j]? := by
  induction l with
  | nil => intro objs _; rfl
  | cons i l ih =>
    intro objs hj
    rw [List.mem_cons, not_or] at hj
    rw [List.foldl_cons, ih _ hj.2,
      updateObjectConstraints_getElem_ne tid objs i j hj.1]

lemma rangeFoldl_skeleton (tid : String) (l : List ℕ) (j : ℕ) :
    ∀ objs, ((l.foldl (updateObjectConstraints tid) objs)[j]?).map
      constraintSkeleton = ((objs[j]?).map constraintSkeleton) := by
  induction l with
  | nil => intro objs; rfl
  | cons i l ih =>
    intro objs
    rw [List.foldl_cons, ih, updateObjectConstraints_skeleton]

lemma skeleton_to_id {a b : List (DrawingObject ℚ)} {j : ℕ}
    (h : (a[j]?).map constraintSkeleton = (b[j]?).map constraintSkeleton) :
    (a[j]?).map (fun o => o.id) = (b[j]?).map (fun o => o.id) := by
  have h2 := congrArg (Option.map (fun p =>
    (p : String × ObjType × Option (List (ObjectConstraint ℚ))).1)) h
  simpa [Option.map_map, constraintSkeleton, Function.comp] using h2

lemma rangeFoldl_tid_stable (tid : String) (objs0 : List (DrawingObject ℚ))
    (hself : ∀ o ∈ objs0, o.id = tid →
      ∀ c ∈ o.constraints.getD [], c.targetId ≠ tid) :
    ∀ (l : List ℕ) (objs : List (DrawingObject ℚ)),
      (∀ j : ℕ, (objs[j]?).map constraintSkeleton
        = (objs0[j]?).map constraintSkeleton) →
      (∀ j : ℕ, (objs0[j]?).map (fun o => o.id) = some tid →
        objs[j]? = objs0[j]?) →
      ∀ j : ℕ, (objs0[j]?).map (fun o => o.id) = some tid →
        (l.foldl (updateObjectConstraints tid) objs)[j]? = objs0[j]? := by
  intro l
  induction l with
  | nil => intro objs _ hstable j hj; exact hstable j hj
  | cons i l ih =>
    intro objs hskel hstable j hj
    rw [List.foldl_cons]
    apply ih
    · intro k
      rw [updateObjectConstraints_skeleton]
      exact hskel k
    · intro k hk
      rcases eq_or_ne k i with rfl | hne
      · obtain ⟨o0, ho0⟩ : ∃ o0, objs0[k]? = some o0 := by
          cases h0 : objs0[k]?
          · rw [h0] at hk; exact absurd hk (by simp)
          · exact ⟨_, rfl⟩
        have ho0id : o0.id = tid := by
          rw [ho0] at hk
          simpa using hk
        have hsk := hskel k
        rw [ho0] at hsk
        obtain ⟨ok, hok⟩ : ∃ ok, objs[k]? = some ok := by
          cases h1 : objs[k]?
          · rw [h1] at hsk; exact absurd hsk (by simp)
          · exact ⟨_, rfl⟩
        rw [hok] at hsk
        have hsk' : constraintSkeleton ok = constraintSkeleton o0 := by
          simpa using hsk
        have hcs : ok.constraints = o0.constraints :=
          congrArg (fun p => p.2.2) hsk'
        have hidstep : updateObjectConstraints tid objs k = objs := by
          apply updateObjectConstraints_id_of_no_match tid objs k ok hok
          rw [hcs]
          exact hself o0 (List.getElem?_mem ho0) ho0id
        rw [hidstep]
        exact hstable k hk
      · rw [updateObjectConstraints_getElem_ne tid objs i k hne]
        exact hstable k hk
    · exact hj

lemma find?_congr_id (tid : String) :
    ∀ (bs as : List (DrawingObject ℚ)),
      as.length = bs.length →
      (∀ j : ℕ, (as[j]?).map (fun o => o.id) = (bs[j]?).map (fun o => o.id)) →
      (∀ j : ℕ, (bs[j]?).map (fun o => o.id) = some tid →
        as[j]? = bs[j]?) →
      as.find? (fun o => o.id == tid) = bs.find? (fun o => o.id == tid) := by
  intro bs
  induction bs with
  | nil =>
    intro as hlen _ _
    rw [List.length_nil, List.length_eq_zero] at hlen
    rw [hlen]
  | cons b bs ih =>
    intro as hlen hid hval
    cases as with
    | nil => exact absurd hlen (by simp)
    | cons a as' =>
      have hab : a.id = b.id := by
        have := hid 0
        simpa using this
      by_cases hb : b.id = tid
      · have h0 : (a :: as')[0]? = (b :: bs)[0]? := by
          apply hval 0
          simpa using hb
        have hab' : a = b := by simpa using h0
        rw [List.find?_cons, List.find?_cons, hab']
        simp [hb]
      · have hpa : (a.id == tid) = false := by
          simp [hab, hb]
        have hpb : (b.id == tid) = false := by
          simp [hb]
        rw [List.find?_cons, hpa, List.find?_cons, hpb]
        apply ih as'
        · simpa using hlen
        · intro j
          have := hid (j + 1)
          simpa using this
        · intro j hj
          have := hval (j + 1) (by simpa using hj)
          simpa using this

lemma rangeFoldl_find? (tid : String) (objs0 : List (DrawingObject ℚ))
    (hself : ∀ o ∈ objs0, o.id = tid →
      ∀ c ∈ o.constraints.getD [], c.targetId ≠ tid) (l : List ℕ) :
    (l.foldl (updateObjectConstraints tid) objs0).find?
      (fun o => o.id == tid) = objs0.find? (fun o => o.id == tid) := by
  apply find?_congr_id tid objs0
  · exact rangeFoldl_length tid l objs0
  · intro j
    exact skeleton_to_id (rangeFoldl_skeleton tid l j objs0)
  · intro j hj
    exact rangeFoldl_tid_stable tid objs0 hself l objs0
      (fun _ => rfl) (fun _ _ => rfl) j hj

lemma updateObjectConstraints_of_single (tid : String)
    (objs : List (DrawingObject ℚ)) (i : ℕ) (dep : DrawingObject ℚ)
    (c : ObjectConstraint ℚ) (hdep : objs[i]? = some dep)
    (hcs : dep.constraints = some [c]) :
    updateObjectConstraints tid objs i = applyConstraint tid objs i c := by
  unfold updateObjectConstraints
  rw [hdep]
  show (match dep.constraints with
    | none => objs
    | some cs => cs.foldl (fun acc c => applyConstraint tid acc i c) objs) = _
  rw [hcs]
  rfl

lemma updateConstrainedObjects_decompose (tid : String)
    (objs : List (DrawingObject ℚ)) (i : ℕ) (hi : i < objs.length) :
    (updateConstrainedObjects tid objs)[i]? =
      (updateObjectConstraints tid
        ((List.range i).foldl (updateObjectConstraints tid) objs) i)[i]? := by
  unfold updateConstrainedObjects
  have hsplit : List.range objs.length =
      (List.range i ++ [i]) ++
        (List.range (objs.length - (i + 1))).map ((i + 1) + ·) := by
    rw [← List.range_succ, ← List.range_add]
    congr 1
    omega
  have h1 : i ∉ (List.range (objs.length - (i + 1))).map ((i + 1) + ·) := by
    simp only [List.mem_map, List.mem_range]
    rintro ⟨x, -, hx⟩
    omega
  rw [hsplit, List.foldl_append,
    rangeFoldl_getElem_not_mem tid _ i _ h1, List.foldl_append]
  rfl

lemma applyConstraint_id_of_find_none (tid : String)
    (objs : List (DrawingObject ℚ)) (i : ℕ) (c : ObjectConstraint ℚ)
    (h : objs.find? (fun o => o.id == tid) = none) :
    applyConstraint tid objs i c = objs := by
  unfold applyConstraint
  split
  · rfl
  · rw [h]

lemma updateObjectConstraints_id_of_find_none (tid : String)
    (objs : List (DrawingObject ℚ)) (i : ℕ)
    (h : objs.find? (fun o => o.id == tid) = none) :
    updateObjectConstraints tid objs i = objs := by
  unfold updateObjectConstraints
  cases hobj : objs[i]? with
  | none => rfl
  | some obj =>
    show (match obj.constraints with
      | none => objs
      | some cs => cs.foldl (fun acc c => applyConstraint tid acc i c) objs)
      = objs
    cases hcs : obj.constraints with
    | none => rfl
    | some cs =>
      show cs.foldl (fun acc c => applyConstraint tid acc i c) objs = objs
      clear hcs hobj
      induction cs with
      | nil => rfl
      | cons c cs ih =>
        rw [List.foldl_cons, applyConstraint_id_of_find_none tid objs i c h]
        exact ih

/-- A move notification for an id that names no object is a total no-op
(dangling constraints are tolerated, never fatal). -/
lemma updateConstrainedObjects_id_of_absent (tid : String)
    (objs : List (DrawingObject ℚ)) (h : ∀ o ∈ objs, o.id ≠ tid) :
    updateConstrainedObjects tid objs = objs := by
  have hfind : objs.find? (fun o => o.id == tid) = none :=
    List.find?_eq_none.mpr (fun x hx => by simp [h x hx])
  unfold updateConstrainedObjects
  generalize List.range objs.length = l
  induction l with
  | nil => rfl
  | cons i l ih =>
    rw [List.foldl_cons, updateObjectConstraints_id_of_find_none tid objs i hfind]
    exact ih

/-- C5 (amended): `updateConstrainedObjects` is one single, non-transitive
pass: it preserves the length and the id/type/constraint skeleton of the
collection, is a total no-op when the moved id names no object, leaves any
object untouched whose constraint list has no entry for the moved id, and
recomputes each dependent from the (stable) target: a circle with a
`center` constraint moves to the target's position *plus the stored offset
when present*, while a line with a `start_point` / `end_point` constraint
has that endpoint moved *exactly to the target's position* — the stored
offset is applied only in the `center` case, never for endpoint-follow. -/
theorem updateConstrainedObjects_spec :
    (∀ (tid : String) (objs : List (DrawingObject ℚ)),
      (∀ o ∈ objs, o.id ≠ tid) → updateConstrainedObjects tid objs = objs) ∧
    (∀ (tid : String) (objs : List (DrawingObject ℚ)),
      (updateConstrainedObjects tid objs).length = objs.length) ∧
    (∀ (tid : String) (objs : List (DrawingObject ℚ)) (i : ℕ)
      (dep : DrawingObject ℚ), objs[i]? = some dep →
      (∀ c ∈ dep.constraints.getD [], c.targetId ≠ tid) →
      (updateConstrainedObjects tid objs)[i]? = some dep) ∧
    (∀ (tid : String) (objs : List (DrawingObject ℚ))
      (tgt dep : DrawingObject ℚ) (i : ℕ) (c : ObjectConstraint ℚ),
      (∀ o ∈ objs, o.id = tid →
        ∀ c' ∈ o.constraints.getD [], c'.targetId ≠ tid) →
      objs.find? (fun o => o.id == tid) = some tgt →
      objs[i]? = some dep →
      dep.constraints = some [c] →
      c.targetId = tid →
      ((c.type = ConstraintType.center → dep.type = ObjType.circle →
        (updateConstrainedObjects tid objs)[i]? = some { dep with position :=
          match c.offset with
          | some off =>
            (⟨tgt.position.x + off.x, tgt.position.y + off.y⟩ : Point ℚ)
          | none => tgt.position }) ∧
       (∀ ps : List (Point ℚ), c.type = ConstraintType.start_point →
         dep.type = ObjType.line → dep.points = some ps → 2 ≤ ps.length →
         (updateConstrainedObjects tid objs)[i]? = some { dep with
           points := some (ps.set 0 tgt.position),
           position := tgt.position }) ∧
       (∀ ps : List (Point ℚ), c.type = ConstraintType.end_point →
         dep.type = ObjType.line → dep.points = some ps → 2 ≤ ps.length →
         (updateConstrainedObjects tid objs)[i]? = some { dep with
           points := some (ps.set 1 tgt.position) }))) := by
  refine ⟨updateConstrainedObjects_id_of_absent, ?_, ?_, ?_⟩
  · intro tid objs
    exact rangeFoldl_length tid (List.range objs.length) objs
  · intro tid objs i dep hdep h
    have hi := lt_length_of_getElem?_eq_some hdep
    rw [updateConstrainedObjects_decompose tid objs i hi]
    have hsi : ((List.range i).foldl (updateObjectConstraints tid) objs)[i]?
        = some dep := by
      rw [rangeFoldl_getElem_not_mem tid (List.range i) i objs (by simp)]
      exact hdep
    rw [updateObjectConstraints_id_of_no_match tid _ i dep hsi h, hsi]
  · intro tid objs tgt dep i c hself hfind hdep hcs hct
    have hi := lt_length_of_getElem?_eq_some hdep
    have hsi : ((List.range i).foldl (updateObjectConstraints tid) objs)[i]?
        = some dep := by
      rw [rangeFoldl_getElem_not_mem tid (List.range i) i objs (by simp)]
      exact hdep
    have hfindsi :
        ((List.range i).foldl (updateObjectConstraints tid) objs).find?
          (fun o => o.id == tid) = some tgt := by
      rw [rangeFoldl_find? tid objs hself (List.range i)]
      exact hfind
    have hilen :
        i < ((List.range i).foldl (updateObjectConstraints tid) objs).length := by
      rw [rangeFoldl_length]
      exact hi
    have hstep : (updateConstrainedObjects tid objs)[i]? =
        (applyConstraint tid
          ((List.range i).foldl (updateObjectConstraints tid) objs) i c)[i]? := by
      rw [updateConstrainedObjects_decompose tid objs i hi,
        updateObjectConstraints_of_single tid _ i dep c hsi hcs]
    have hbne : (c.targetId != tid) = false := by simp [hct]
    refine ⟨?_, ?_, ?_⟩
    · intro hctype hdeptype
      rw [hstep]
      unfold applyConstraint
      simp [hbne, hfindsi, hsi, hctype, hdeptype,
        List.getElem?_set_self hilen]
    · intro ps hctype hdeptype hps hlen
      have hset : jsSetElem ps 0 tgt.position = ps.set 0 tgt.position := by
        unfold jsSetElem
        rw [if_pos (by omega)]
      rw [hstep]
      unfold applyConstraint
      simp [hbne, hfindsi, hsi, hctype, hdeptype, hps, hset,
        List.getElem?_set_self hilen]
    · intro ps hctype hdeptype hps hlen
      have hset : jsSetElem ps 1 tgt.position = ps.set 1 tgt.position := by
        unfold jsSetElem
        rw [if_pos (by omega)]
      rw [hstep]
      unfold applyConstraint
      simp [hbne, hfindsi, hsi, hctype, hdeptype, hps, hset,
        List.getElem?_set_self hilen]

/-- C4: committing the selection box with corners `p1`, `p2` replaces the
selection id set (and the mirrored `selected` flags) with exactly the ids of
the visible objects whose geometry tests inside the axis-aligned rectangle
spanned by the two corners; the rectangle is computed by per-axis min/max,
so the result is insensitive to corner order; point-like objects (`point`,
`rectangle`, `circle`, `text`) are tested by their anchor position, a line
with at least two points by whether any constituent point lies inside; and
(with unique ids) an invisible object is never selected. -/
theorem finishSelectionBox_spec (s : StoreState) (p1 p2 : Point ℚ)
    (hs : s.selectionBoxStart = some p1) (he : s.selectionBoxEnd = some p2) :
    (finishSelectionBox s).selectedObjectIds =
      (s.objects.filter (fun o => o.visible &&
        selectionBoxContains (min p1.x p2.x) (max p1.x p2.x)
          (min p1.y p2.y) (max p1.y p2.y) o)).map (fun o => o.id) ∧
    (finishSelectionBox s).objects = s.objects.map (fun o =>
      { o with selected := ((s.objects.filter (fun o' => o'.visible &&
          selectionBoxContains (min p1.x p2.x) (max p1.x p2.x)
            (min p1.y p2.y) (max p1.y p2.y) o')).map
          (fun o' => o'.id)).contains o.id }) ∧
    (∀ s' : StoreState, s'.selectionBoxStart = some p2 →
      s'.selectionBoxEnd = some p1 → s'.objects = s.objects →
      (finishSelectionBox s').selectedObjectIds =
        (finishSelectionBox s).selectedObjectIds) ∧
    (∀ o : DrawingObject ℚ,
      (o.type = ObjType.point ∨ o.type = ObjType.rectangle ∨
        o.type = ObjType.circle ∨ o.type = ObjType.text) →
      (selectionBoxContains (min p1.x p2.x) (max p1.x p2.x)
          (min p1.y p2.y) (max p1.y p2.y) o = true ↔
        (min p1.x p2.x ≤ o.position.x ∧ o.position.x ≤ max p1.x p2.x ∧
         min p1.y p2.y ≤ o.position.y ∧ o.position.y ≤ max p1.y p2.y))) ∧
    (∀ (o : DrawingObject ℚ) (ps : List (Point ℚ)),
      o.type = ObjType.line → o.points = some ps → 2 ≤ ps.length →
      (selectionBoxContains (min p1.x p2.x) (max p1.x p2.x)
          (min p1.y p2.y) (max p1.y p2.y) o = true ↔
        ∃ p ∈ ps, min p1.x p2.x ≤ p.x ∧ p.x ≤ max p1.x p2.x ∧
          min p1.y p2.y ≤ p.y ∧ p.y ≤ max p1.y p2.y)) ∧
    ((s.objects.map (fun o => o.id)).Nodup →
      ∀ o ∈ s.objects, o.visible = false →
        o.id ∉ (finishSelectionBox s).selectedObjectIds) := by
  have hids : (finishSelectionBox s).selectedObjectIds =
      (s.objects.filter (fun o => o.visible &&
        selectionBoxContains (min p1.x p2.x) (max p1.x p2.x)
          (min p1.y p2.y) (max p1.y p2.y) o)).map (fun o => o.id) := by
    unfold finishSelectionBox
    rw [hs, he]
    rfl
  refine ⟨hids, ?_, ?_, ?_, ?_, ?_⟩
  · unfold finishSelectionBox
    rw [hs, he]
    rfl
  · intro s' hs' he' hobj
    have hids' : (finishSelectionBox s').selectedObjectIds =
        (s'.objects.filter (fun o => o.visible &&
          selectionBoxContains (min p2.x p1.x) (max p2.x p1.x)
            (min p2.y p1.y) (max p2.y p1.y) o)).map (fun o => o.id) := by
      unfold finishSelectionBox
      rw [hs', he']
      rfl
    rw [hids', hids, hobj, min_comm p2.x p1.x, max_comm p2.x p1.x,
      min_comm p2.y p1.y, max_comm p2.y p1.y]
  · intro o hty
    rcases hty with h | h | h | h <;>
      simp [selectionBoxContains, h, inRect, and_assoc]
  · intro o ps hty hps hlen
    simp [selectionBoxContains, hty, hps, hlen, List.any_eq_true, inRect,
      and_assoc]
  · intro hnodup o ho hvis hid
    rw [hids] at hid
    simp only [List.mem_map] at hid
    obtain ⟨o', ho', hido⟩ := hid
    rw [List.mem_filter] at ho'
    have hvis' : o'.visible = true := by
      have := ho'.2
      simp only [Bool.and_eq_true] at this
      exact this.1
    have : o' = o := List.inj_on_of_nodup_map hnodup ho'.1 ho hido
    rw [this] at hvis'
    rw [hvis] at hvis'
    exact Bool.false_ne_true hvis'

/-- Witness for C4 with corners `(0,0)`–`(100,100)`: exactly the visible
in-box point and the line with an in-box endpoint are selected. -/
theorem finishSelectionBox_spec_witness :
    (finishSelectionBox boxDemoState).selectedObjectIds = ["v", "l"] ∧
    "h" ∉ (finishSelectionBox boxDemoState).selectedObjectIds := by
  have h := finishSelectionBox_spec boxDemoState ⟨0, 0⟩ ⟨100, 100⟩
    (by decide) (by decide)
  rw [h.1]
  constructor
  · decide
  · decide

/-- C10: whenever `undo` (resp. `redo`) is enabled, the state immediately
after it has an empty selection id set and every live object's `selected`
flag cleared, regardless of the selection flags recorded in the restored
snapshot. -/
theorem undo_redo_clear_selection :
    ∀ s : StoreState,
      (canUndo s = true →
        (undo s).selectedObjectIds = [] ∧
        ∀ o ∈ (undo s).objects, o.selected = false) ∧
      (canRedo s = true →
        (redo s).selectedObjectIds = [] ∧
        ∀ o ∈ (redo s).objects, o.selected = false) := by
  intro s
  constructor
  · intro h
    have h' : 0 < s.historyIndex := by
      simpa [canUndo] using h
    unfold undo
    rw [if_pos h']
    refine ⟨rfl, ?_⟩
    intro o ho
    simp only [List.mem_map] at ho
    obtain ⟨a, -, rfl⟩ := ho
    rfl
  · intro h
    have h' : s.historyIndex + 1 < s.history.length := by
      simpa [canRedo] using h
    unfold redo
    rw [if_pos h']
    refine ⟨rfl, ?_⟩
    intro o ho
    simp only [List.mem_map] at ho
    obtain ⟨a, -, rfl⟩ := ho
    rfl

/-- Witness for C10: a state with one undo available (after a commit), and a
state with one redo available (after that undo). -/
theorem undo_redo_clear_selection_witness :
    (undo (saveToHistory initialState)).selectedObjectIds = [] ∧
    (redo (undo (saveToHistory initialState))).selectedObjectIds = [] :=
  ⟨((undo_redo_clear_selection (saveToHistory initialState)).1 (by decide)).1,
   ((undo_redo_clear_selection (undo (saveToHistory initialState))).2 (by decide)).1⟩

/-- Counterexample to C5 as stated: a line whose `start_point` constraint
stores offset `(5, 5)` and follows a target at `(10, 10)` gets its start
point moved to `(10, 10)` exactly — the code never adds the stored offset
for `start_point`/`end_point` constraints, while the claim says the offset
is added in each case (which would give `(15, 15)`). -/
theorem updateConstrainedObjects_offset_cex :
    ((updateConstrainedObjects "t" [cTarget, cLine])[1]?).map
      (fun o => o.points) = some (some [(⟨10, 10⟩ : Point ℚ), ⟨1, 1⟩]) ∧
    ((updateConstrainedObjects "t" [cTarget, cLine])[1]?).map
      (fun o => o.points) ≠ some (some [(⟨15, 15⟩ : Point ℚ), ⟨1, 1⟩]) := by
  decide

/-- Witness for the amended C5 at the concrete two-object scene. -/
theorem updateConstrainedObjects_spec_witness :
    (updateConstrainedObjects "t" [cTarget, cLine])[1]? =
      some { cLine with
        points := some ([(⟨0, 0⟩ : Point ℚ), ⟨1, 1⟩].set 0 cTarget.position),
        position := cTarget.position } := by
  have h := updateConstrainedObjects_spec.2.2.2 "t" [cTarget, cLine]
    cTarget cLine 1 cexConstraint (by decide) (by decide) (by decide)
    (by decide) (by decide)
  exact h.2.1 [⟨0, 0⟩, ⟨1, 1⟩] (by decide) (by decide) (by decide) (by decide)

/-- C7: `calculateAngle` always returns a value in `[0, 180]` (degrees);
whenever both vectors are nonzero it equals the mathematical angle between
the vectors `A - vertex` and `C - vertex` (the clamp of the cosine is then
a no-op by Cauchy–Schwarz) converted to degrees; and on the spec's concrete
example it returns exactly 90 (stronger than the required `±1e-6`), with
`calculateMidpoint({0,0},{4,0}) = {2,0}`. -/
theorem calculateAngle_spec :
    (∀ A V C : Point ℝ,
      0 ≤ calculateAngle A V C ∧ calculateAngle A V C ≤ 180) ∧
    (∀ A V C : Point ℝ, toVec A V ≠ 0 → toVec C V ≠ 0 →
      calculateAngle A V C =
        InnerProductGeometry.angle (toVec A V) (toVec C V) * 180 / Real.pi) ∧
    calculateAngle ⟨1, 0⟩ ⟨0, 0⟩ ⟨0, 1⟩ = 90 ∧
    calculateMidpoint ⟨0, 0⟩ ⟨4, 0⟩ = ⟨2, 0⟩ := by
  have hpi := Real.pi_pos
  refine ⟨?_, ?_, ?_, ?_⟩
  · intro A V C
    unfold calculateAngle
    simp only []
    constructor
    · apply div_nonneg _ (le_of_lt hpi)
      exact mul_nonneg (Real.arccos_nonneg _) (by norm_num)
    · rw [div_le_iff hpi]
      have h := Real.arccos_le_pi (max (-1) (min 1
        (((A.x - V.x) * (C.x - V.x) + (A.y - V.y) * (C.y - V.y)) /
          (Real.sqrt ((A.x - V.x) * (A.x - V.x) + (A.y - V.y) * (A.y - V.y)) *
           Real.sqrt ((C.x - V.x) * (C.x - V.x) + (C.y - V.y) * (C.y - V.y))))))
      nlinarith
  · intro A V C hA hC
    have hnA : ‖toVec A V‖ =
        Real.sqrt ((A.x - V.x) * (A.x - V.x) + (A.y - V.y) * (A.y - V.y)) := by
      rw [EuclideanSpace.norm_eq, Fin.sum_univ_two]
      congr 1
      simp [toVec, Real.norm_eq_abs, sq_abs]
      ring
    have hnC : ‖toVec C V‖ =
        Real.sqrt ((C.x - V.x) * (C.x - V.x) + (C.y - V.y) * (C.y - V.y)) := by
      rw [EuclideanSpace.norm_eq, Fin.sum_univ_two]
      congr 1
      simp [toVec, Real.norm_eq_abs, sq_abs]
      ring
    have hinner : (inner (toVec A V) (toVec C V) : ℝ) =
        (A.x - V.x) * (C.x - V.x) + (A.y - V.y) * (C.y - V.y) := by
      rw [PiLp.inner_apply, Fin.sum_univ_two]
      simp [toVec, RCLike.inner_apply, mul_comm]
    have hA' : (0 : ℝ) < ‖toVec A V‖ := norm_pos_iff.mpr hA
    have hC' : (0 : ℝ) < ‖toVec C V‖ := norm_pos_iff.mpr hC
    have hcs := abs_real_inner_le_norm (toVec A V) (toVec C V)
    have ht : |(inner (toVec A V) (toVec C V) : ℝ) /
        (‖toVec A V‖ * ‖toVec C V‖)| ≤ 1 := by
      rw [abs_div, abs_of_pos (mul_pos hA' hC')]
      exact div_le_one_of_le hcs (le_of_lt (mul_pos hA' hC'))
    have ht' := abs_le.mp ht
    unfold calculateAngle InnerProductGeometry.angle
    simp only []
    rw [← hnA, ← hnC, ← hinner, min_eq_right ht'.2, max_eq_right ht'.1]
  · unfold calculateAngle
    simp only []
    norm_num [Real.sqrt_one, Real.arccos_zero]
    field_simp
    ring
  · unfold calculateMidpoint
    norm_num

/-- Witness for C7 at nonzero concrete vectors. -/
theorem calculateAngle_spec_witness :
    calculateAngle ⟨1, 0⟩ ⟨0, 0⟩ ⟨2, 2⟩ =
      InnerProductGeometry.angle (toVec ⟨1, 0⟩ ⟨0, 0⟩)
        (toVec ⟨2, 2⟩ ⟨0, 0⟩) * 180 / Real.pi := by
  apply calculateAngle_spec.2.1
  · intro h
    have h0 := congrFun h 0
    simp [toVec] at h0
  · intro h
    have h0 := congrFun h 0
    simp [toVec] at h0

lemma nameExtents_valid (obj : DrawingObject ℚ) :
    (nameExtents obj).minX ≤ obj.position.x ∧
    obj.position.x ≤ (nameExtents obj).maxX ∧
    (nameExtents obj).minY ≤ obj.position.y ∧
    obj.position.y ≤ (nameExtents obj).maxY := by
  unfold nameExtents
  split
  · exact ⟨min_le_left _ _, le_max_left _ _, min_le_left _ _, le_max_left _ _⟩
  · exact ⟨le_refl _, le_refl _, le_refl _, le_refl _⟩

lemma objectEnvelope_valid (jscos jssin : ℚ → ℚ) (obj : DrawingObject ℚ) :
    (objectEnvelope jscos jssin obj).minX ≤ obj.position.x ∧
    obj.position.x ≤ (objectEnvelope jscos jssin obj).maxX ∧
    (objectEnvelope jscos jssin obj).minY ≤ obj.position.y ∧
    obj.position.y ≤ (objectEnvelope jscos jssin obj).maxY := by
  have hne := nameExtents_valid obj
  unfold objectEnvelope
  (repeat' split) <;>
    exact ⟨le_trans (min_le_right _ _) hne.1,
      le_trans hne.2.1 (le_max_right _ _),
      le_trans (min_le_right _ _) hne.2.2.1,
      le_trans hne.2.2.2 (le_max_right _ _)⟩

lemma objectEnvelope_wf (jscos jssin : ℚ → ℚ) (obj : DrawingObject ℚ) :
    (objectEnvelope jscos jssin obj).minX ≤ (objectEnvelope jscos jssin obj).maxX ∧
    (objectEnvelope jscos jssin obj).minY ≤ (objectEnvelope jscos jssin obj).maxY := by
  have h := objectEnvelope_valid jscos jssin obj
  exact ⟨le_trans h.1 h.2.1, le_trans h.2.2.1 h.2.2.2⟩

lemma visibleEnvelope_wf (jscos jssin : ℚ → ℚ)
    (objs : List (DrawingObject ℚ)) :
    ∀ b, visibleEnvelope jscos jssin objs = some b →
      b.minX ≤ b.maxX ∧ b.minY ≤ b.maxY := by
  unfold visibleEnvelope
  suffices h : ∀ (acc : Option Bounds),
      (∀ b, acc = some b → b.minX ≤ b.maxX ∧ b.minY ≤ b.maxY) →
      ∀ b, objs.foldl (fun acc obj =>
        if obj.visible then
          let e := objectEnvelope jscos jssin obj
          match acc with
          | none => some e
          | some b =>
            some ⟨min b.minX e.minX, max b.maxX e.maxX,
                  min b.minY e.minY, max b.maxY e.maxY⟩
        else acc) acc = some b → b.minX ≤ b.maxX ∧ b.minY ≤ b.maxY by
    exact h none (by intro b hb; exact absurd hb (by simp))
  induction objs with
  | nil =>
    intro acc hacc b hb
    exact hacc b hb
  | cons o os ih =>
    intro acc hacc b hb
    rw [List.foldl_cons] at hb
    refine ih _ ?_ b hb
    intro b' hb'
    by_cases hv : o.visible
    · rw [if_pos hv] at hb'
      have hwf := objectEnvelope_wf jscos jssin o
      cases hacc' : acc with
      | none =>
        rw [hacc'] at hb'
        simp only [] at hb'
        replace hb' := Option.some.inj hb'
        rw [← hb']
        exact hwf
      | some b0 =>
        rw [hacc'] at hb'
        simp only [] at hb'
        replace hb' := Option.some.inj hb'
        have h0 := hacc b0 hacc'
        rw [← hb']
        constructor
        · exact le_trans (le_trans (min_le_left _ _) h0.1) (le_max_left _ _)
        · exact le_trans (le_trans (min_le_left _ _) h0.2) (le_max_left _ _)
    · rw [if_neg hv] at hb'
      exact hacc b' hb'

lemma jsRoundHalfAway_bounds (q : ℚ) :
    q - 1 / 2 ≤ (jsRoundHalfAway q : ℚ) ∧ (jsRoundHalfAway q : ℚ) ≤ q + 1 / 2 := by
  unfold jsRoundHalfAway
  split
  · constructor
    · have h := Int.lt_floor_add_one (q + 1 / 2)
      push_cast
      push_cast at h
      linarith
    · have h := Int.floor_le (q + 1 / 2)
      push_cast
      linarith
  · constructor
    · have h := Int.floor_le (-q + 1 / 2)
      push_cast
      linarith
    · have h := Int.lt_floor_add_one (-q + 1 / 2)
      push_cast
      push_cast at h
      linarith

lemma toFixedVal_two_bounds (q : ℚ) :
    q - 1 / 200 ≤ toFixedVal 2 q ∧ toFixedVal 2 q ≤ q + 1 / 200 := by
  unfold toFixedVal
  have h := jsRoundHalfAway_bounds (q * 10 ^ 2)
  constructor
  · rw [le_div_iff (by norm_num : (0:ℚ) < 10 ^ 2)]
    nlinarith [h.1]
  · rw [div_le_iff (by norm_num : (0:ℚ) < 10 ^ 2)]
    nlinarith [h.2]

lemma pixelToTikZVal_bounds (p : ℚ) :
    p / 28 - 1 / 200 ≤ pixelToTikZVal p ∧
    pixelToTikZVal p ≤ p / 28 + 1 / 200 := by
  unfold pixelToTikZVal
  simp only []
  split_ifs
  · constructor <;> linarith
  · constructor <;> linarith
  · exact toFixedVal_two_bounds _

lemma ratCeil_eq (a : ℚ) : ⌈a⌉ = -⌊-a⌋ := rfl

lemma roundToNice_step_pos (v : ℚ) :
    (0 : ℚ) < (if |v| < 1 then (1 : ℚ) / 2 else if |v| < 5 then 1
      else if |v| < 20 then 2 else if |v| < 100 then 5 else 10) := by
  split_ifs <;> norm_num

lemma roundToNice_min_le (v : ℚ) : roundToNice v true ≤ v := by
  unfold roundToNice
  have hstep := roundToNice_step_pos v
  simp only [if_true]
  calc (⌊v / _⌋ : ℚ) * _ ≤ (v / _) * _ :=
        mul_le_mul_of_nonneg_right (Int.floor_le _) (le_of_lt hstep)
    _ = v := div_mul_cancel₀ v (ne_of_gt hstep)

lemma roundToNice_le_max (v : ℚ) : v ≤ roundToNice v false := by
  unfold roundToNice
  have hstep := roundToNice_step_pos v
  simp only [if_false]
  calc v = (v / _) * _ := (div_mul_cancel₀ v (ne_of_gt hstep)).symm
    _ ≤ (⌈v / _⌉ : ℚ) * _ :=
        mul_le_mul_of_nonneg_right (Int.le_ceil _) (le_of_lt hstep)

/-- C6: `calculatePerpendicularLine` returns `none` exactly when the base
object is missing, not of type `line`, or has fewer than 2 points; any
returned object is a line carrying `baseLineId` as a back-reference, with
endpoints `P ∓ 100·u` for `u` the unit vector obtained by rotating the base
direction 90°, anchored at the first endpoint, and its direction vector has
dot product exactly 0 with the base direction. -/
theorem calculatePerpendicularLine_spec :
    (∀ (objs : List (DrawingObject ℝ)) (baseLineId : String) (P : Point ℝ),
      calculatePerpendicularLine objs baseLineId P = none ↔
        isInvalidBaseLine objs baseLineId = true) ∧
    (∀ (objs : List (DrawingObject ℝ)) (baseLineId : String) (P : Point ℝ)
      (l : DrawingObject ℝ),
      calculatePerpendicularLine objs baseLineId P = some l →
      l.type = ObjType.line ∧ l.baseLineId = some baseLineId ∧
      ∃ (b : DrawingObject ℝ) (ps : List (Point ℝ)),
        getObjectById objs baseLineId = some b ∧ b.points = some ps ∧
        2 ≤ ps.length ∧
        l.points = some [
          ⟨P.x - (unitPerp (ps.getD 0 ⟨0, 0⟩) (ps.getD 1 ⟨0, 0⟩)).x * 100,
           P.y - (unitPerp (ps.getD 0 ⟨0, 0⟩) (ps.getD 1 ⟨0, 0⟩)).y * 100⟩,
          ⟨P.x + (unitPerp (ps.getD 0 ⟨0, 0⟩) (ps.getD 1 ⟨0, 0⟩)).x * 100,
           P.y + (unitPerp (ps.getD 0 ⟨0, 0⟩) (ps.getD 1 ⟨0, 0⟩)).y * 100⟩] ∧
        l.position =
          ⟨P.x - (unitPerp (ps.getD 0 ⟨0, 0⟩) (ps.getD 1 ⟨0, 0⟩)).x * 100,
           P.y - (unitPerp (ps.getD 0 ⟨0, 0⟩) (ps.getD 1 ⟨0, 0⟩)).y * 100⟩ ∧
        dotProduct (lineDirection l)
          (psub (ps.getD 1 ⟨0, 0⟩) (ps.getD 0 ⟨0, 0⟩)) = 0) := by
  constructor
  · intro objs id P
    unfold calculatePerpendicularLine isInvalidBaseLine
    cases hgo : getObjectById objs id with
    | none => simp
    | some b =>
      simp only []
      by_cases hty : b.type ≠ ObjType.line
      · simp [hty]
      · rw [if_neg hty, if_neg hty]
        cases hps : b.points with
        | none => simp
        | some ps =>
          by_cases hlen : ps.length < 2
          · simp [hlen]
          · simp [hlen]
  · intro objs id P l h
    unfold calculatePerpendicularLine at h
    rcases hgo : getObjectById objs id with - | b
    · rw [hgo] at h
      exact absurd h (by simp)
    rw [hgo] at h
    simp only [] at h
    by_cases hty : b.type ≠ ObjType.line
    · rw [if_pos hty] at h
      exact absurd h (by simp)
    rw [if_neg hty] at h
    cases hps : b.points with
    | none =>
      rw [hps] at h
      exact absurd h (by simp)
    | some ps =>
      rw [hps] at h
      simp only [] at h
      by_cases hlen : ps.length < 2
      · rw [if_pos hlen] at h
        exact absurd h (by simp)
      rw [if_neg hlen] at h
      replace h := (Option.some.inj h).symm
      subst h
      refine ⟨rfl, rfl, b, ps, ?_, ?_, ?_, ?_, ?_, ?_⟩
      · rfl
      · exact hps
      · omega
      · show some _ = some _
        unfold unitPerp
        rfl
      · show (_ : Point ℝ) = _
        unfold unitPerp
        rfl
      · unfold lineDirection
        simp only []
        unfold psub dotProduct
        simp only []
        ring

lemma calculatePerpendicularLine_demo :
    calculatePerpendicularLine [perpBase] "b" ⟨0, 0⟩ = some perpDemo := by
  have hgo : getObjectById [perpBase] "b" = some perpBase := rfl
  unfold calculatePerpendicularLine
  rw [hgo]
  simp only []
  rw [if_neg (by simp [perpBase])]
  rw [show perpBase.points = some [(⟨0, 0⟩ : Point ℝ), ⟨0, 1⟩] from rfl]
  simp only []
  rw [if_neg (by simp)]
  simp only [Option.some.injEq]
  unfold perpDemo
  have hm : Real.sqrt (-((1 : ℝ) - 0) * -(1 - 0) + (0 - 0) * (0 - 0)) = 1 := by
    norm_num [Real.sqrt_one]
  simp [List.getD, hm]

/-- Witness for C6: on the concrete vertical base line the construction
returns the horizontal line through the origin, back-referencing the base,
with direction orthogonal to the base direction. -/
theorem calculatePerpendicularLine_spec_witness :
    calculatePerpendicularLine [perpBase] "b" ⟨0, 0⟩ = some perpDemo ∧
    perpDemo.type = ObjType.line ∧
    perpDemo.baseLineId = some "b" ∧
    dotProduct (lineDirection perpDemo) (psub ⟨0, 1⟩ ⟨0, 0⟩) = 0 := by
  have h := calculatePerpendicularLine_spec.2 [perpBase] "b" ⟨0, 0⟩ perpDemo
    calculatePerpendicularLine_demo
  refine ⟨calculatePerpendicularLine_demo, h.1, h.2.1, ?_⟩
  obtain ⟨b, ps, hgo, hps, hlen, hpts, hpos, hdot⟩ := h.2.2
  have hb : b = perpBase := Option.some.inj hgo.symm
  subst hb
  have hps' : ps = [⟨0, 0⟩, ⟨0, 1⟩] :=
    Option.some.inj (hps.symm.trans (show perpBase.points = _ from rfl))
  subst hps'
  simpa using hdot

set_option maxHeartbeats 1600000 in
/-- C8 (amended): the view-bounds fitting never returns a degenerate range
— both spans are strictly positive for every object collection and every
cosine/sine implementation — and for the single-point scene at the origin
(default stroke width, no name label) it returns the minimum-sized window
`[-2,2] × [-2,2]`, symmetric around that point on both axes. -/
theorem calculateBounds_spec :
    (∀ (jscos jssin : ℚ → ℚ) (objs : List (DrawingObject ℚ)),
      0 < (calculateBounds jscos jssin objs).maxX -
        (calculateBounds jscos jssin objs).minX ∧
      0 < (calculateBounds jscos jssin objs).maxY -
        (calculateBounds jscos jssin objs).minY) ∧
    (∀ jscos jssin : ℚ → ℚ,
      calculateBounds jscos jssin [sampleObj] = ⟨-2, 2, -2, 2⟩) := by
  constructor
  · intro jc js objs
    unfold calculateBounds
    split
    · norm_num
    · split
      case h_1 => norm_num
      case h_2 b heq =>
        have hwf := visibleEnvelope_wf jc js objs b heq
        have hx1 := (pixelToTikZVal_bounds (b.minX - getOriginOffset.x)).2
        have hx2 := (pixelToTikZVal_bounds (b.maxX - getOriginOffset.x)).1
        have hy1 := (pixelToTikZVal_bounds (-(b.maxY - getOriginOffset.y))).2
        have hy2 := (pixelToTikZVal_bounds (-(b.minY - getOriginOffset.y))).1
        have hox : getOriginOffset.x = 0 := rfl
        have hoy : getOriginOffset.y = 0 := rfl
        set t1 := pixelToTikZVal (b.minX - getOriginOffset.x) with ht1
        set t2 := pixelToTikZVal (b.maxX - getOriginOffset.x) with ht2
        set t3 := pixelToTikZVal (-(b.maxY - getOriginOffset.y)) with ht3
        set t4 := pixelToTikZVal (-(b.minY - getOriginOffset.y)) with ht4
        have hdx : -1 / 100 ≤ t2 - t1 := by
          rw [hox] at hx1 hx2
          have h28 : (0 : ℚ) ≤ (b.maxX - b.minX) / 28 := by
            apply div_nonneg _ (by norm_num)
            linarith [hwf.1]
          have : (b.maxX - 0) / 28 - (b.minX - 0) / 28 = (b.maxX - b.minX) / 28 := by
            ring
          linarith
        have hdy : -1 / 100 ≤ t4 - t3 := by
          rw [hoy] at hy1 hy2
          have h28 : (0 : ℚ) ≤ (b.maxY - b.minY) / 28 := by
            apply div_nonneg _ (by norm_num)
            linarith [hwf.2]
          have : -(b.minY - 0) / 28 - -(b.maxY - 0) / 28 = (b.maxY - b.minY) / 28 := by
            ring
          linarith
        set p1 := max (1 : ℚ) ((t2 - t1) * (1 / 10)) with hp1
        set p2 := max (1 : ℚ) ((t4 - t3) * (1 / 10)) with hp2
        have hp1le : (1 : ℚ) ≤ p1 := le_max_left _ _
        have hp2le : (1 : ℚ) ≤ p2 := le_max_left _ _
        have hr1 := roundToNice_min_le (t1 - p1)
        have hr2 := roundToNice_le_max (t2 + p1)
        have hr3 := roundToNice_min_le (t3 - p2)
        have hr4 := roundToNice_le_max (t4 + p2)
        set r1 := roundToNice (t1 - p1) true with hrr1
        set r2 := roundToNice (t2 + p1) false with hrr2
        set r3 := roundToNice (t3 - p2) true with hrr3
        set r4 := roundToNice (t4 + p2) false with hrr4
        simp only []
        split_ifs with hA hB
        · constructor
          · simp only []
            linarith
          · simp only []
            linarith
        · constructor
          · simp only []
            linarith
          · simp only []
            linarith
        · constructor
          · simp only []
            linarith
          · simp only []
            linarith
  · intro jc js
    norm_num [calculateBounds, visibleEnvelope, objectEnvelope, nameExtents,
      jsTruthy, jsOr, jsOrVal, sampleObj, pixelToTikZVal, toFixedVal,
      jsRoundHalfAway, roundToNice, getOriginOffset, ratCeil_eq, min_def,
      max_def, abs]

set_option maxHeartbeats 1600000 in
/-- Counterexample to C8 as stated: the single point at canvas position
`(8.4, 8.4)` yields the window `[-1.5, 2.5] × [-2, 1]`: the Y-span is 3,
below the 4-unit minimum (the X-axis fix-up returns early and skips the
Y check), and neither axis is centred on the point (whose TikZ position is
`(0.3, -0.3)`, while the window centres are `(0.5, -0.5)`). -/
theorem calculateBounds_cex :
    calculateBounds (fun _ => 0) (fun _ => 0)
      [{ sampleObj with position := ⟨42 / 5, 42 / 5⟩ }] =
      ⟨-3 / 2, 5 / 2, -2, 1⟩ ∧
    (1 : ℚ) - (-2) < 4 ∧
    ((-3 / 2 : ℚ) + 5 / 2) / 2 ≠ pixelToTikZVal (42 / 5) := by
  refine ⟨?_, by norm_num, ?_⟩
  · norm_num [calculateBounds, visibleEnvelope, objectEnvelope, nameExtents,
      jsTruthy, jsOr, jsOrVal, sampleObj, pixelToTikZVal, toFixedVal,
      jsRoundHalfAway, roundToNice, getOriginOffset, ratCeil_eq, min_def,
      max_def, abs]
  · norm_num [pixelToTikZVal, toFixedVal, jsRoundHalfAway]

lemma calculateBounds_nil (jscos jssin : ℚ → ℚ) :
    calculateBounds jscos jssin [] = ⟨-3, 3, -3, 3⟩ := rfl

set_option maxHeartbeats 1600000 in
set_option maxRecDepth 4000 in
lemma coordinateSystemString_default :
    coordinateSystemString ⟨-3, 3, -3, 3⟩ = defaultCoordSystem := by
  norm_num [coordinateSystemString, getGridStep, getTickSpacing,
    formatCoord, ratToFixed, ratToFixedNat, padZeros, jsForRange,
    xTickLine, yTickLine, ratCeil_eq, min_def, max_def, abs,
    List.range_succ, String.join, defaultCoordSystem,
    show List.range (Int.toNat 5) = [0, 1, 2, 3, 4] from rfl]
  decide

/-- C9: on the empty collection the generator emits exactly the header
(for the chosen wrapper mode), the fixed comment-placeholder body, the
default coordinate system exactly when `showCoordinates` is on, a newline
and the footer; the per-object emitter is never consulted (so generation
is deterministic and emits no per-object statement), and the output
contains the placeholder comment.  Totality of the Lean function
witnesses that no exception is raised. -/
theorem generateTikZCode_empty_spec :
    ∀ (jscos jssin : ℚ → ℚ) (g g' : DrawingObject ℚ → String)
      (wrap coords : Bool),
      generateTikZCode jscos jssin g wrap coords [] =
        tikzHeader wrap [] ++ emptyBody ++
          (if coords then defaultCoordSystem else "") ++ "\n" ++
          tikzFooter wrap ∧
      generateTikZCode jscos jssin g wrap coords [] =
        generateTikZCode jscos jssin g' wrap coords [] ∧
      ∃ p q : String,
        generateTikZCode jscos jssin g wrap coords [] =
          p ++ "% No objects to draw" ++ q := by
  intro jc js g g' wrap coords
  have h1 : generateTikZCode jc js g wrap coords [] =
      tikzHeader wrap [] ++ emptyBody ++
        (if coords then defaultCoordSystem else "") ++ "\n" ++
        tikzFooter wrap := by
    simp only [generateTikZCode, calculateBounds_nil,
      coordinateSystemString_default, List.length_nil, if_true,
      eq_self_iff_true]
  refine ⟨h1, rfl, tikzHeader wrap [] ++ "\n      \n  ",
    "\n  % Use the tools in the toolbar to create geometric shapes\n  " ++
      (if coords then defaultCoordSystem else "") ++ "\n" ++
      tikzFooter wrap, ?_⟩
  rw [h1, show emptyBody = "\n      \n  " ++ "% No objects to draw" ++
    "\n  % Use the tools in the toolbar to create geometric shapes\n  "
    from rfl]
  simp only [String.append_assoc]

end TikzSketch
